import Mathlib

/-!
Verification of the Redis-backed utility layer of the WhatsApp SaaS
repository (source file `redis-config-template.js`).

The JavaScript source is shallowly embedded as follows.

* JavaScript JSON documents become the inductive type `Json`
  (null, booleans, integer numbers, strings, arrays, objects).
  Machine floating-point numbers are outside the model; numbers are
  modelled as integers.
* `JSON.stringify` / `JSON.parse` become `Json.stringify` / `Json.parse`,
  a character-level printer and recursive-descent parser pair, with a
  proved round-trip theorem.
* The Redis store becomes `RedisState`: an association list from keys to
  a value (`RVal`: a plain string, an integer counter, or a sorted set)
  together with an optional remaining TTL in seconds.  Store commands
  (`get`, `setex`, `incr`, `expire`, `ttl`, `zadd`, `zpopmax`, `zcard`,
  `keys`) are pure state transformers; commands that Redis would reject
  (wrong type, invalid expire) return `none`, which the JavaScript
  `try/catch` blocks observe as a thrown error.
* Awaited store commands that can fail at the network level take an
  explicit `Bool` failure flag; `true` means the awaited promise rejects,
  which the surrounding `try/catch` of the JavaScript source observes.
* Passage of time is modelled by `RedisState.tick`, which decreases TTLs
  and drops expired keys; `Date.now()` becomes an explicit `now` argument.
-/

/-- JSON document values, as produced by `JSON.parse`: null, booleans,
(integer) numbers, strings, arrays and objects. -/
inductive Json where
  | null : Json
  | bool : Bool → Json
  | num : Int → Json
  | str : String → Json
  | arr : List Json → Json
  | obj : List (String × Json) → Json

/-- Decimal digit character for `d % 10`. -/
def digitChar (d : Nat) : Char := Char.ofNat (48 + d % 10)

/-- Fuel-driven decimal printer accumulator: emits the digits of `n`
in front of `acc`.  Fuel `n + 1` always suffices. -/
def natDigitsAux : Nat → Nat → List Char → List Char
  | 0, _, acc => acc
  | f + 1, n, acc =>
    if n < 10 then digitChar n :: acc
    else natDigitsAux f (n / 10) (digitChar (n % 10) :: acc)

/-- Decimal digits of a natural number, most significant first. -/
def natDigits (n : Nat) : List Char := natDigitsAux (n + 1) n []

/-- Decimal rendering of an integer, as `String(number)` renders integral
JavaScript numbers. -/
def printInt (n : Int) : List Char :=
  if n < 0 then '-' :: natDigits n.natAbs else natDigits n.natAbs

/-- Lower-case hex digit character for `m < 16`. -/
def hexChar (m : Nat) : Char :=
  Char.ofNat (if m < 10 then 48 + m else 87 + m)

/-- String escaping of one character, as `JSON.stringify` escapes string
contents: quote, backslash, the short control escapes, and `\u00xx` for
the remaining control characters. -/
def escapeChar (c : Char) : List Char :=
  if c = '"' then ['\\', '"']
  else if c = '\\' then ['\\', '\\']
  else if c = '\n' then ['\\', 'n']
  else if c = '\t' then ['\\', 't']
  else if c = '\r' then ['\\', 'r']
  else if c = '\x08' then ['\\', 'b']
  else if c = '\x0C' then ['\\', 'f']
  else if c.toNat < 32 then
    ['\\', 'u', '0', '0', hexChar (c.toNat / 16), hexChar (c.toNat % 16)]
  else [c]

/-- Escape a whole character list, continuing with `tail`. -/
def printChars (s : List Char) (tail : List Char) : List Char :=
  s.foldr (fun c acc => escapeChar c ++ acc) tail

mutual

/-- Character-level rendering of a JSON value, exactly as the compact
(no extra whitespace) output of `JSON.stringify`. -/
def printVal : Json → List Char
  | .null => "null".data
  | .bool true => "true".data
  | .bool false => "false".data
  | .num n => printInt n
  | .str s => '"' :: printChars s.data ['"']
  | .arr [] => ['[', ']']
  | .arr (x :: xs) => '[' :: (printItems (x :: xs) ++ [']'])
  | .obj [] => ['\x7b', '\x7d']
  | .obj (kv :: kvs) => '\x7b' :: (printMembers (kv :: kvs) ++ ['\x7d'])

/-- Comma-separated rendering of array elements. -/
def printItems : List Json → List Char
  | [] => []
  | [x] => printVal x
  | x :: y :: xs => printVal x ++ ',' :: printItems (y :: xs)

/-- Comma-separated rendering of object members. -/
def printMembers : List (String × Json) → List Char
  | [] => []
  | [(k, v)] => '"' :: printChars k.data ('"' :: ':' :: printVal v)
  | (k, v) :: kv :: kvs =>
    ('"' :: printChars k.data ('"' :: ':' :: printVal v)) ++ ',' :: printMembers (kv :: kvs)

end

/-- Digit test on a character (ASCII 48..57). -/
def isDigitCh (c : Char) : Bool := 48 ≤ c.toNat && c.toNat ≤ 57

/-- Consume a maximal run of digits, folding them onto `acc`. -/
def readDigits : List Char → Nat → Nat × List Char
  | c :: cs, acc =>
    if isDigitCh c then readDigits cs (acc * 10 + (c.toNat - 48)) else (acc, c :: cs)
  | [], acc => (acc, [])

/-- Parse a nonempty digit run into a natural number. -/
def parseNat (cs : List Char) : Option (Nat × List Char) :=
  match cs with
  | c :: _ => if isDigitCh c then some (readDigits cs 0) else none
  | [] => none

/-- Hexadecimal value of a character, if any. -/
def hexVal (c : Char) : Option Nat :=
  if 48 ≤ c.toNat ∧ c.toNat ≤ 57 then some (c.toNat - 48)
  else if 97 ≤ c.toNat ∧ c.toNat ≤ 102 then some (c.toNat - 87)
  else if 65 ≤ c.toNat ∧ c.toNat ≤ 70 then some (c.toNat - 55)
  else none

/-- Meaning of a short escape character after a backslash. -/
def unescChar (e : Char) : Option Char :=
  if e = '"' then some '"'
  else if e = '\\' then some '\\'
  else if e = '/' then some '/'
  else if e = 'n' then some '\n'
  else if e = 't' then some '\t'
  else if e = 'r' then some '\r'
  else if e = 'b' then some '\x08'
  else if e = 'f' then some '\x0C'
  else none

/-- Parse the body of a JSON string up to and including the closing
quote, undoing the escapes. -/
def parseStr : List Char → Option (List Char × List Char)
  | [] => none
  | c :: cs =>
    if c = '"' then some ([], cs)
    else if c = '\\' then
      match cs with
      | [] => none
      | e :: cs2 =>
        if e = 'u' then
          match cs2 with
          | h1 :: h2 :: h3 :: h4 :: cs3 =>
            match hexVal h1, hexVal h2, hexVal h3, hexVal h4 with
            | some a, some b, some c3, some d =>
              (parseStr cs3).map
                (fun p => (Char.ofNat (((a * 16 + b) * 16 + c3) * 16 + d) :: p.1, p.2))
            | _, _, _, _ => none
          | _ => none
        else
          match unescChar e with
          | some u => (parseStr cs2).map (fun p => (u :: p.1, p.2))
          | none => none
    else (parseStr cs).map (fun p => (c :: p.1, p.2))

/-- Consume an expected literal character sequence. -/
def expectChars : List Char → List Char → Option (List Char)
  | [], cs => some cs
  | p :: ps, c :: cs => if c = p then expectChars ps cs else none
  | _ :: _, [] => none

/-- Intermediate results of the JSON parser: a value, a list of array
items, or a list of object members. -/
inductive POut where
  | val (j : Json)
  | items (xs : List Json)
  | membs (kvs : List (String × Json))

/-- Fuel-driven recursive-descent JSON parser.  Mode 0 parses one value,
mode 1 parses array items up to and including the closing bracket, mode 2
parses object members up to and including the closing brace.  Fuel
`input length + 1` always suffices for printer output. -/
def parseF : Nat → Nat → List Char → Option (POut × List Char)
  | 0, _, _ => none
  | _ + 1, 0, [] => none
  | f + 1, 0, c :: r =>
    if c = 'n' then (expectChars ['u', 'l', 'l'] r).map (fun r2 => (POut.val Json.null, r2))
    else if c = 't' then
      (expectChars ['r', 'u', 'e'] r).map (fun r2 => (POut.val (Json.bool true), r2))
    else if c = 'f' then
      (expectChars ['a', 'l', 's', 'e'] r).map (fun r2 => (POut.val (Json.bool false), r2))
    else if c = '"' then
      (parseStr r).map (fun p => (POut.val (Json.str (String.mk p.1)), p.2))
    else if c = '[' then
      match r with
      | ']' :: r2 => some (POut.val (Json.arr []), r2)
      | _ =>
        match parseF f 1 r with
        | some (POut.items xs, r2) => some (POut.val (Json.arr xs), r2)
        | _ => none
    else if c = '\x7b' then
      match r with
      | '\x7d' :: r2 => some (POut.val (Json.obj []), r2)
      | _ =>
        match parseF f 2 r with
        | some (POut.membs kvs, r2) => some (POut.val (Json.obj kvs), r2)
        | _ => none
    else if c = '-' then
      (parseNat r).map (fun p => (POut.val (Json.num (-(p.1 : Int))), p.2))
    else if isDigitCh c then
      (parseNat (c :: r)).map (fun p => (POut.val (Json.num (p.1 : Int)), p.2))
    else none
  | f + 1, 1, cs =>
    match parseF f 0 cs with
    | some (POut.val v, r) =>
      match r with
      | ',' :: r2 =>
        (match parseF f 1 r2 with
         | some (POut.items xs, r3) => some (POut.items (v :: xs), r3)
         | _ => none)
      | ']' :: r2 => some (POut.items [v], r2)
      | _ => none
    | _ => none
  | f + 1, 2, cs =>
    match cs with
    | '"' :: r =>
      (match parseStr r with
       | some (kcs, r1) =>
         (match r1 with
          | ':' :: r2 =>
            (match parseF f 0 r2 with
             | some (POut.val v, r3) =>
               (match r3 with
                | ',' :: r4 =>
                  (match parseF f 2 r4 with
                   | some (POut.membs kvs, r5) =>
                     some (POut.membs ((String.mk kcs, v) :: kvs), r5)
                   | _ => none)
                | '\x7d' :: r4 => some (POut.membs [(String.mk kcs, v)], r4)
                | _ => none)
             | _ => none)
          | _ => none)
       | none => none)
    | _ => none
  | _ + 1, _ + 3, _ => none

/-- Embedding of `JSON.stringify`. -/
def Json.stringify (v : Json) : String := String.mk (printVal v)

/-- Embedding of `JSON.parse`; `none` models a thrown `SyntaxError`. -/
def Json.parse (s : String) : Option Json :=
  match parseF (s.data.length + 1) 0 s.data with
  | some (POut.val v, []) => some v
  | _ => none

/-! ## Json helpers used by the JavaScript code -/

/-- Truthiness of a JSON value under JavaScript coercion rules. -/
def Json.truthy : Json → Bool
  | .null => false
  | .bool b => b
  | .num n => n != 0
  | .str s => !(s == "")
  | .arr _ => true
  | .obj _ => true

/-- Own enumerable fields of a value, as object spread `...v` sees them
(non-objects contribute no string-keyed fields here). -/
def Json.fields : Json → List (String × Json)
  | .obj kvs => kvs
  | _ => []

/-- Last binding of a key in an object member list, as JavaScript
property lookup sees an object built by `JSON.parse`. -/
def objLookup (kvs : List (String × Json)) (k : String) : Option Json :=
  kvs.foldl (fun acc e => if e.1 == k then some e.2 else acc) none

/-- JavaScript property access `v.k`; `none` models `undefined`. -/
def Json.getField (v : Json) (k : String) : Option Json :=
  objLookup v.fields k

/-- Object spread `{...a, ...b}`: keys of `a` in order with values
overridden by `b` where present, then the new keys of `b` appended. -/
def mergeObj (a b : List (String × Json)) : List (String × Json) :=
  (a.map fun e =>
    match objLookup b e.1 with
    | some v => (e.1, v)
    | none => e) ++
    b.filter fun e => !(a.any fun x => x.1 == e.1)

/-! ## The Redis store -/

/-- Value stored under a Redis key: a plain string, an integer counter
(the integer encoding Redis keeps for `INCR`), or a sorted set of
(score, member) pairs. -/
inductive RVal where
  | str (s : String)
  | int (n : Int)
  | zset (members : List (Int × String))

/-- State of the Redis store: an association list from keys to a value
and an optional remaining time to live in seconds (`none` = no expiry). -/
structure RedisState where
  entries : List (String × RVal × Option Int)

namespace RedisState

/-- The empty store. -/
def empty : RedisState := ⟨[]⟩

/-- Raw lookup of a key. -/
def lookup (st : RedisState) (k : String) : Option (RVal × Option Int) :=
  (st.entries.find? fun e => e.1 == k).map (·.2)

/-- Write a key: replace in place when present, else add the entry. -/
def insert (st : RedisState) (k : String) (v : RVal) (t : Option Int) : RedisState :=
  if st.entries.any fun e => e.1 == k then
    ⟨st.entries.map fun e => if e.1 == k then (k, v, t) else e⟩
  else ⟨(k, v, t) :: st.entries⟩

/-- Redis `DEL`. -/
def del (st : RedisState) (k : String) : RedisState :=
  ⟨st.entries.filter fun e => !(e.1 == k)⟩

/-- Redis `TTL`: `-2` for a missing key, `-1` for a key without expiry,
otherwise the remaining seconds. -/
def ttl (st : RedisState) (k : String) : Int :=
  match st.lookup k with
  | none => -2
  | some (_, none) => -1
  | some (_, some t) => t

/-- Redis `EXPIRE`: no-op returning `false` on a missing key; a
non-positive time deletes the key; otherwise the TTL is replaced. -/
def expire (st : RedisState) (k : String) (secs : Int) : Bool × RedisState :=
  match st.lookup k with
  | none => (false, st)
  | some (v, _) => if secs ≤ 0 then (true, st.del k) else (true, st.insert k v (some secs))

/-- Redis `SET` without expiry (clears any TTL). -/
def setPlain (st : RedisState) (k : String) (s : String) : RedisState :=
  st.insert k (RVal.str s) none

/-- Redis `SETEX`; rejects a non-positive expire time (`none` models the
thrown `invalid expire time` error). -/
def setex (st : RedisState) (k : String) (secs : Int) (s : String) : Option RedisState :=
  if secs ≤ 0 then none else some (st.insert k (RVal.str s) (some secs))

/-- Redis `INCR`: a missing key becomes 1; an integer counter is
incremented keeping its TTL; anything else errors (`none`). -/
def incr (st : RedisState) (k : String) : Option (Int × RedisState) :=
  match st.lookup k with
  | none => some (1, st.insert k (RVal.int 1) none)
  | some (RVal.int n, t) => some (n + 1, st.insert k (RVal.int (n + 1)) t)
  | some (RVal.str s, t) =>
    match s.toInt? with
    | some n => some (n + 1, st.insert k (RVal.int (n + 1)) t)
    | none => none
  | some (RVal.zset _, _) => none

/-- Redis `ZADD key score member`: creates the sorted set, or updates the
member's score, or appends the member; errors on a non-set key. -/
def zadd (st : RedisState) (k : String) (score : Int) (member : String) :
    Option RedisState :=
  match st.lookup k with
  | none => some (st.insert k (RVal.zset [(score, member)]) none)
  | some (RVal.zset ms, t) =>
    if ms.any fun m => m.2 == member then
      some (st.insert k (RVal.zset (ms.map fun m =>
        if m.2 == member then (score, member) else m)) t)
    else some (st.insert k (RVal.zset (ms ++ [(score, member)])) t)
  | some (_, _) => none

/-- Larger of two (score, member) pairs, scores first, ties on the
member string, as `ZPOPMAX` ranks members. -/
def pairMax (a b : Int × String) : Int × String :=
  if a.1 < b.1 || (a.1 == b.1 && decide (a.2 < b.2)) then b else a

/-- Highest-ranked element of a sorted-set member list. -/
def zsetMax : List (Int × String) → Option (Int × String)
  | [] => none
  | m :: ms => some (ms.foldl pairMax m)

/-- Redis `ZPOPMAX`: pops the highest-score member, returning the flat
`[member, score]` reply; an empty reply for a missing key; deletes the
key when the set empties; errors on a non-set key. -/
def zpopmax (st : RedisState) (k : String) : Option (List String × RedisState) :=
  match st.lookup k with
  | none => some ([], st)
  | some (RVal.zset ms, t) =>
    match zsetMax ms with
    | none => some ([], st.del k)
    | some m =>
      let rest := ms.filter fun x => !(x.1 == m.1 && x.2 == m.2)
      some ([m.2, toString m.1],
        if rest.isEmpty then st.del k else st.insert k (RVal.zset rest) t)
  | some (_, _) => none

/-- Redis `ZCARD`; errors on a non-set key. -/
def zcard (st : RedisState) (k : String) : Option Int :=
  match st.lookup k with
  | none => some 0
  | some (RVal.zset ms, _) => some (ms.length : Int)
  | some (_, _) => none

/-- Boolean prefix test on character lists. -/
def listIsPfx : List Char → List Char → Bool
  | [], _ => true
  | _ :: _, [] => false
  | p :: ps, c :: cs => p == c && listIsPfx ps cs

/-- Redis `KEYS pat*`: all keys starting with the given literal part, in
store enumeration order. -/
def keysMatching (st : RedisState) (p : String) : List String :=
  (st.entries.map (·.1)).filter fun k => listIsPfx p.data k.data

/-- Passage of `n` seconds: keys with a TTL at most `n` expire, the
others keep ticking down.  Keys without TTL persist. -/
def tick (st : RedisState) (n : Nat) : RedisState :=
  ⟨st.entries.filterMap fun e =>
    match e.2.2 with
    | none => some e
    | some t => if t ≤ (n : Int) then none else some (e.1, e.2.1, some (t - (n : Int)))⟩

end RedisState

/-! ## Embeddings of the JavaScript utility objects.

Each embedded function mirrors one `async` function of
`redis-config-template.js`.  A `Bool` argument per awaited store command
injects a network failure of that command (the awaited promise rejects);
the surrounding JavaScript `try/catch` turns any such rejection, or any
command error from the store itself, into the function's fallback return
value.  JavaScript `null` is `Json.null` where a JSON value is returned.
-/

namespace cache

/-- Embedding of `cache.set(key, value, ttlSeconds)`.  A truthy
(non-zero) TTL uses `SETEX`, a falsy one plain `SET`; any error yields
`false`.  Omitting `ttlSeconds` in JavaScript passes the default 3600. -/
def set (st : RedisState) (fSet : Bool) (key : String) (value : Json)
    (ttlSeconds : Int) : Bool × RedisState :=
  if fSet then (false, st)
  else
    let serializedValue := Json.stringify value
    if ttlSeconds != 0 then
      match st.setex key ttlSeconds serializedValue with
      | some st2 => (true, st2)
      | none => (false, st)
    else (true, st.setPlain key serializedValue)

/-- Embedding of `cache.get(key)`: reads the stored string and parses it;
a missing key, falsy stored string, store error or parse error yields
JavaScript `null`. -/
def get (st : RedisState) (fGet : Bool) (key : String) : Json :=
  if fGet then Json.null
  else
    match st.lookup key with
    | none => Json.null
    | some (RVal.str s, _) =>
      if s == "" then Json.null else (Json.parse s).getD Json.null
    | some (RVal.int n, _) => Json.num n
    | some (RVal.zset _, _) => Json.null

/-- Embedding of `cache.del(key)`. -/
def del (st : RedisState) (fDel : Bool) (key : String) : Bool × RedisState :=
  if fDel then (false, st)
  else
    let present := (st.lookup key).isSome
    (present, st.del key)

end cache

namespace sessionStore

/-- Embedding of `sessionStore.setSession`: stores the session document
under the namespaced key `session:<id>`. -/
def setSession (st : RedisState) (fSet : Bool) (sessionId : String)
    (sessionData : Json) (ttlSeconds : Int) : Bool × RedisState :=
  cache.set st fSet ("session:" ++ sessionId) sessionData ttlSeconds

/-- Embedding of `sessionStore.getSession`. -/
def getSession (st : RedisState) (fGet : Bool) (sessionId : String) : Json :=
  cache.get st fGet ("session:" ++ sessionId)

/-- JavaScript `key.replace('session:', '')` for keys produced by the
`session:*` pattern: the first occurrence is the leading one. -/
def sessionIdOf (k : String) : String :=
  if RedisState.listIsPfx "session:".data k.data then String.mk (k.data.drop 8) else k

/-- The filter test `sessionData && sessionData.userId === userId` for a
string-valued `userId`. -/
def userIdMatches (d : Json) (userId : String) : Bool :=
  d.truthy &&
    match d.getField "userId" with
    | some (Json.str s) => s == userId
    | _ => false

/-- Embedding of `sessionStore.getUserSessions(userId)`: enumerates all
`session:*` keys, loads each, keeps documents whose `userId` matches, and
returns each as `{sessionId, ...sessionData}`; any enumeration error
yields `[]`. -/
def getUserSessions (st : RedisState) (fKeys : Bool) (userId : String) : List Json :=
  if fKeys then []
  else
    (st.keysMatching "session:").filterMap fun key =>
      let sessionData := cache.get st false key
      if userIdMatches sessionData userId then
        some (Json.obj (mergeObj [("sessionId", Json.str (sessionIdOf key))]
          sessionData.fields))
      else none

end sessionStore

namespace rateLimiter

/-- Result record of `rateLimiter.checkLimit`. -/
structure RLResult where
  allowed : Bool
  count : Int
  remaining : Int
  resetTime : Option Int

/-- The catch-block fallback of `checkLimit`. -/
def failResult (maxRequests : Int) : RLResult :=
  ⟨true, 0, maxRequests, none⟩

/-- Embedding of `rateLimiter.checkLimit(identifier, maxRequests,
windowSeconds)`: increments `ratelimit:<identifier>`, arms the TTL when
the incremented count is 1, and reports `allowed`, `count`, `remaining`
and `resetTime` from the live TTL.  Any store failure or error lands in
the catch block, which returns `failResult`. -/
def checkLimit (st : RedisState) (fIncr fExpire fTtl : Bool) (identifier : String)
    (maxRequests windowSeconds now : Int) : RLResult × RedisState :=
  let key := "ratelimit:" ++ identifier
  if fIncr then (failResult maxRequests, st)
  else
    match st.incr key with
    | none => (failResult maxRequests, st)
    | some (currentCount, st1) =>
      if currentCount == 1 && fExpire then (failResult maxRequests, st1)
      else
        let st2 := if currentCount == 1 then (st1.expire key windowSeconds).2 else st1
        if fTtl then (failResult maxRequests, st2)
        else
          let remaining := max 0 (maxRequests - currentCount)
          let t := st2.ttl key
          (⟨decide (currentCount ≤ maxRequests), currentCount, remaining,
            if t > 0 then some (now + t * 1000) else none⟩, st2)

end rateLimiter

namespace queue

/-- Embedding of `queue.addJob(queueName, jobData, priority)`: builds the
job document with id `job:<Date.now()>:<random>` and `ZADD`s its JSON
string with the priority as score; any error yields `null` (`none`). -/
def addJob (st : RedisState) (fZadd : Bool) (queueName : String) (jobData : Json)
    (priority : Int) (now : Int) (rand : String) (createdAt : String) :
    Option String × RedisState :=
  if fZadd then (none, st)
  else
    let jobId := "job:" ++ String.mk (printInt now) ++ ":" ++ rand
    let job := Json.obj [("id", Json.str jobId), ("data", jobData),
      ("priority", Json.num priority), ("createdAt", Json.str createdAt),
      ("status", Json.str "pending")]
    match st.zadd ("queue:" ++ queueName) priority (Json.stringify job) with
    | some st2 => (some jobId, st2)
    | none => (none, st)

/-- Embedding of `queue.getNextJob(queueName)`: `ZPOPMAX` on the queue's
sorted set, deserializing the popped member; an empty reply, store error
or parse error yields `null` (`none`). -/
def getNextJob (st : RedisState) (fPop : Bool) (queueName : String) :
    Option Json × RedisState :=
  if fPop then (none, st)
  else
    match st.zpopmax ("queue:" ++ queueName) with
    | none => (none, st)
    | some (result, st2) =>
      match result with
      | [] => (none, st2)
      | m :: _ => (Json.parse m, st2)

/-- Embedding of `queue.getQueueLength(queueName)`: the sorted-set
cardinality, with any error reported as 0. -/
def getQueueLength (st : RedisState) (fCard : Bool) (queueName : String) : Int :=
  if fCard then 0
  else
    match st.zcard ("queue:" ++ queueName) with
    | some n => n
    | none => 0

end queue

namespace conversationCache

/-- Embedding of `conversationCache.setState`. -/
def setState (st : RedisState) (fSet : Bool) (contactId : String)
    (conversationData : Json) (ttlSeconds : Int) : Bool × RedisState :=
  cache.set st fSet ("conversation:" ++ contactId) conversationData ttlSeconds

/-- Embedding of `conversationCache.getState`. -/
def getState (st : RedisState) (fGet : Bool) (contactId : String) : Json :=
  cache.get st fGet ("conversation:" ++ contactId)

/-- Embedding of `conversationCache.updateStep(contactId, step,
contextData)`: reads the current state (or `{}` when falsy), overwrites
`step`, shallow-merges `contextData`, stamps `updatedAt`, and re-stores
with the fixed 7200-second TTL. -/
def updateStep (st : RedisState) (fGet fSet : Bool) (contactId : String)
    (step : Json) (contextData : Json) (nowIso : String) : Bool × RedisState :=
  let key := "conversation:" ++ contactId
  let current := cache.get st fGet key
  let currentState := if current.truthy then current else Json.obj []
  let updatedState := Json.obj (mergeObj currentState.fields
    [("step", step),
     ("contextData", Json.obj (mergeObj
       ((currentState.getField "contextData").getD Json.null).fields
       contextData.fields)),
     ("updatedAt", Json.str nowIso)])
  cache.set st fSet key updatedState 7200

end conversationCache

/-! ## Round trip of the JSON printer and parser: digits -/

theorem digitChar_toNat (d : Nat) (h : d < 10) : (digitChar d).toNat = 48 + d := by
  unfold digitChar
  interval_cases d <;> decide

theorem isDigitCh_digitChar (d : Nat) (h : d < 10) : isDigitCh (digitChar d) = true := by
  unfold isDigitCh
  rw [digitChar_toNat d h]
  simp
  omega

theorem natDigitsAux_acc (f : Nat) : ∀ n acc, natDigitsAux f n acc = natDigitsAux f n [] ++ acc := by
  induction f with
  | zero => intro n acc; simp [natDigitsAux]
  | succ f ih =>
    intro n acc
    simp only [natDigitsAux]
    split
    · simp
    · rw [ih (n / 10) (digitChar (n % 10) :: acc), ih (n / 10) [digitChar (n % 10)]]
      simp

theorem natDigitsAux_fuel (n : Nat) : ∀ f₁ f₂ acc, n < f₁ → n < f₂ →
    natDigitsAux f₁ n acc = natDigitsAux f₂ n acc := by
  induction n using Nat.strong_induction_on with
  | _ n ih =>
    intro f₁ f₂ acc h₁ h₂
    match f₁, f₂ with
    | g₁ + 1, g₂ + 1 =>
      simp only [natDigitsAux]
      split
      · rfl
      · have hn : 10 ≤ n := by omega
        exact ih (n / 10) (by omega) g₁ g₂ _ (by omega) (by omega)

theorem natDigits_unfold (n : Nat) :
    natDigits n = if n < 10 then [digitChar n]
      else natDigits (n / 10) ++ [digitChar (n % 10)] := by
  unfold natDigits
  split
  · simp only [natDigitsAux]
    rw [if_pos (by assumption)]
  · have hn : 10 ≤ n := by omega
    conv_lhs => rw [show n + 1 = n + 1 from rfl]
    simp only [natDigitsAux]
    rw [if_neg (by omega)]
    rw [natDigitsAux_fuel (n / 10) n (n / 10 + 1) _ (by omega) (by omega)]
    rw [natDigitsAux_acc]
    rfl

/-- Head-of-rest test: the next character, if any, is not a digit. -/
def ndHead : List Char → Bool
  | [] => true
  | c :: _ => !isDigitCh c

theorem readDigits_natDigits (n : Nat) : ∀ acc rest,
    readDigits (natDigits n ++ rest) acc =
      readDigits rest (acc * 10 ^ (natDigits n).length + n) := by
  induction n using Nat.strong_induction_on with
  | _ n ih =>
    intro acc rest
    rw [natDigits_unfold n]
    split
    · simp only [List.cons_append, List.nil_append, readDigits,
        isDigitCh_digitChar n (by omega), if_pos]
      rw [digitChar_toNat n (by omega)]
      simp only [List.length_cons, List.length_nil, pow_one]
      congr 1
      omega
    · have hn : 10 ≤ n := by omega
      rw [List.append_assoc]
      rw [ih (n / 10) (by omega) acc ([digitChar (n % 10)] ++ rest)]
      simp only [List.cons_append, List.nil_append, readDigits,
        isDigitCh_digitChar (n % 10) (by omega), if_pos]
      rw [digitChar_toNat (n % 10) (by omega)]
      rw [List.length_append]
      simp only [List.length_cons, List.length_nil]
      rw [pow_succ, ← mul_assoc]
      congr 1
      omega

theorem readDigits_nd (rest : List Char) (acc : Nat) (h : ndHead rest = true) :
    readDigits rest acc = (acc, rest) := by
  match rest with
  | [] => rfl
  | c :: cs =>
    simp [ndHead] at h
    simp [readDigits, h]

theorem natDigits_head (n : Nat) : ∃ c cs, natDigits n = c :: cs ∧ isDigitCh c = true := by
  induction n using Nat.strong_induction_on with
  | _ n ih =>
    rw [natDigits_unfold n]
    split
    · exact ⟨digitChar n, [], rfl, isDigitCh_digitChar n (by omega)⟩
    · have hn : 10 ≤ n := by omega
      obtain ⟨c, cs, heq, hd⟩ := ih (n / 10) (by omega)
      exact ⟨c, cs ++ [digitChar (n % 10)], by rw [heq]; simp, hd⟩

theorem parseNat_natDigits (n : Nat) (rest : List Char) (h : ndHead rest = true) :
    parseNat (natDigits n ++ rest) = some (n, rest) := by
  obtain ⟨c, cs, heq, hd⟩ := natDigits_head n
  rw [heq]
  simp only [List.cons_append, parseNat, hd, if_pos]
  rw [← List.cons_append, ← heq]
  rw [readDigits_natDigits n 0 rest, readDigits_nd rest _ h]
  simp

theorem isDigitCh_ne (c : Char) (h : isDigitCh c = true) :
    c ≠ 'n' ∧ c ≠ 't' ∧ c ≠ 'f' ∧ c ≠ '"' ∧ c ≠ '[' ∧ c ≠ '\x7b' ∧ c ≠ '-' := by
  refine ⟨?_, ?_, ?_, ?_, ?_, ?_, ?_⟩ <;>
    (rintro rfl; simp [isDigitCh] at h)

theorem parseF_printInt (f : Nat) (n : Int) (rest : List Char) (h : ndHead rest = true) :
    parseF (f + 1) 0 (printInt n ++ rest) = some (POut.val (Json.num n), rest) := by
  unfold printInt
  split
  · rename_i hneg
    simp only [List.cons_append, parseF, List.append_eq]
    simp +decide
    exact ⟨n.natAbs, parseNat_natDigits n.natAbs rest h, by omega⟩
  · rename_i hpos
    obtain ⟨c, cs, heq, hd⟩ := natDigits_head n.natAbs
    obtain ⟨h1, h2, h3, h4, h5, h6, h7⟩ := isDigitCh_ne c hd
    rw [heq]
    simp only [List.cons_append, parseF, List.append_eq]
    rw [if_neg h1, if_neg h2, if_neg h3, if_neg h4, if_neg h5, if_neg h6, if_neg h7,
      if_pos hd]
    have hrw : (c :: (cs ++ rest) : List Char) = natDigits n.natAbs ++ rest := by
      rw [heq]
      rfl
    rw [hrw, parseNat_natDigits n.natAbs rest h]
    simp only [Option.map_some']
    have hab : (n.natAbs : Int) = n := by omega
    rw [hab]

/-! ## Round trip of the JSON printer and parser: strings -/

theorem hexVal_hexChar (m : Nat) (h : m < 16) : hexVal (hexChar m) = some m := by
  unfold hexVal hexChar
  interval_cases m <;> decide

theorem parseStr_escapeChar (c : Char) (z : List Char) :
    parseStr (escapeChar c ++ z) = (parseStr z).map (fun p => (c :: p.1, p.2)) := by
  unfold escapeChar
  split_ifs with h1 h2 h3 h4 h5 h6 h7 h8
  · subst h1; rw [List.cons_append, List.cons_append, List.nil_append, parseStr.eq_def]
    simp +decide [unescChar]
  · subst h2; rw [List.cons_append, List.cons_append, List.nil_append, parseStr.eq_def]
    simp +decide [unescChar]
  · subst h3; rw [List.cons_append, List.cons_append, List.nil_append, parseStr.eq_def]
    simp +decide [unescChar]
  · subst h4; rw [List.cons_append, List.cons_append, List.nil_append, parseStr.eq_def]
    simp +decide [unescChar]
  · subst h5; rw [List.cons_append, List.cons_append, List.nil_append, parseStr.eq_def]
    simp +decide [unescChar]
  · subst h6; rw [List.cons_append, List.cons_append, List.nil_append, parseStr.eq_def]
    simp +decide [unescChar]
  · subst h7; rw [List.cons_append, List.cons_append, List.nil_append, parseStr.eq_def]
    simp +decide [unescChar]
  · simp only [List.cons_append, List.nil_append]
    rw [parseStr.eq_def]
    simp +decide
    rw [show hexVal '0' = some 0 from by decide,
      hexVal_hexChar (c.toNat / 16) (by omega), hexVal_hexChar (c.toNat % 16) (by omega)]
    have hc : Char.ofNat (((0 * 16 + 0) * 16 + c.toNat / 16) * 16 + c.toNat % 16) = c := by
      have harith : ((0 * 16 + 0) * 16 + c.toNat / 16) * 16 + c.toNat % 16 = c.toNat := by
        omega
      rw [harith, Char.ofNat_toNat]
    dsimp only
    simp only [hc]
  · simp only [List.cons_append, List.nil_append]
    rw [parseStr.eq_def]
    simp [h1, h2]

theorem parseStr_printChars (s : List Char) : ∀ rest,
    parseStr (printChars s ('"' :: rest)) = some (s, rest) := by
  induction s with
  | nil =>
    intro rest
    show parseStr ('"' :: rest) = some ([], rest)
    rw [parseStr.eq_def]
    simp +decide
  | cons c cs ih =>
    intro rest
    have hstep : printChars (c :: cs) ('"' :: rest) =
        escapeChar c ++ printChars cs ('"' :: rest) := by
      simp [printChars]
    rw [hstep, parseStr_escapeChar c _, ih rest]
    rfl

/-! ## Round trip of the JSON printer and parser: values -/

theorem printChars_split (s : List Char) (t w : List Char) :
    printChars s t ++ w = printChars s (t ++ w) := by
  induction s with
  | nil => rfl
  | cons c cs ih =>
    show (escapeChar c ++ printChars cs t) ++ w = escapeChar c ++ printChars cs (t ++ w)
    rw [List.append_assoc, ih]

theorem stringMkData (s : String) : String.mk s.data = s := rfl

mutual

/-- Weight of a JSON value: an upper bound on the parser fuel needed. -/
def sizeV : Json → Nat
  | .null => 1
  | .bool _ => 1
  | .num _ => 1
  | .str _ => 1
  | .arr xs => 1 + sizeL xs
  | .obj kvs => 1 + sizeM kvs

/-- Weight of an array item list. -/
def sizeL : List Json → Nat
  | [] => 0
  | x :: xs => 1 + sizeV x + sizeL xs

/-- Weight of an object member list. -/
def sizeM : List (String × Json) → Nat
  | [] => 0
  | (_, v) :: kvs => 1 + sizeV v + sizeM kvs

end

theorem sizeV_pos (v : Json) : 1 ≤ sizeV v := by
  cases v <;> simp [sizeV]

/-- Constraint on the characters that may follow a printed value: after a
printed number the next character must not be a digit. -/
def tailOk : Json → List Char → Prop
  | .num _, rest => ndHead rest = true
  | _, _ => True

theorem tailOk_cons (v : Json) (c : Char) (w : List Char) (h : isDigitCh c = false) :
    tailOk v (c :: w) := by
  cases v <;> simp [tailOk, ndHead, h]

theorem tailOk_nil (v : Json) : tailOk v [] := by
  cases v <;> simp [tailOk, ndHead]

theorem printVal_head (v : Json) :
    ∃ c cs, printVal v = c :: cs ∧ c ≠ ']' ∧ c ≠ '\x7d' := by
  cases v with
  | null => exact ⟨'n', _, rfl, by decide, by decide⟩
  | bool b =>
    cases b
    · exact ⟨'f', _, rfl, by decide, by decide⟩
    · exact ⟨'t', _, rfl, by decide, by decide⟩
  | num n =>
    rw [show printVal (Json.num n) = printInt n from rfl]
    unfold printInt
    split
    · exact ⟨'-', _, rfl, by decide, by decide⟩
    · obtain ⟨c, cs, heq, hd⟩ := natDigits_head n.natAbs
      refine ⟨c, cs, heq, ?_, ?_⟩ <;> (rintro rfl; simp [isDigitCh] at hd)
  | str s => exact ⟨'"', _, rfl, by decide, by decide⟩
  | arr xs =>
    cases xs with
    | nil => exact ⟨'[', _, rfl, by decide, by decide⟩
    | cons x xs => exact ⟨'[', _, rfl, by decide, by decide⟩
  | obj kvs =>
    cases kvs with
    | nil => exact ⟨'\x7b', _, rfl, by decide, by decide⟩
    | cons kv kvs => exact ⟨'\x7b', _, rfl, by decide, by decide⟩

theorem printItems_head (x : Json) (xs : List Json) :
    ∃ c cs, printItems (x :: xs) = c :: cs ∧ c ≠ ']' ∧ c ≠ '\x7d' := by
  obtain ⟨c, cs, heq, h1, h2⟩ := printVal_head x
  cases xs with
  | nil => exact ⟨c, cs, heq, h1, h2⟩
  | cons y ys =>
    refine ⟨c, cs ++ ',' :: printItems (y :: ys), ?_, h1, h2⟩
    rw [show printItems (x :: y :: ys) = printVal x ++ ',' :: printItems (y :: ys) from rfl,
      heq, List.cons_append]

theorem parseF_print (f : Nat) :
    (∀ v rest, sizeV v ≤ f → tailOk v rest →
      parseF f 0 (printVal v ++ rest) = some (POut.val v, rest)) ∧
    (∀ xs rest, xs ≠ [] → sizeL xs ≤ f →
      parseF f 1 (printItems xs ++ ']' :: rest) = some (POut.items xs, rest)) ∧
    (∀ kvs rest, kvs ≠ [] → sizeM kvs ≤ f →
      parseF f 2 (printMembers kvs ++ '\x7d' :: rest) = some (POut.membs kvs, rest)) := by
  induction f with
  | zero =>
    refine ⟨fun v rest hs _ => absurd hs (by have := sizeV_pos v; omega), ?_, ?_⟩
    · rintro (_ | ⟨x, xs⟩) rest hne hs
      · exact absurd rfl hne
      · simp [sizeL] at hs
    · rintro (_ | ⟨⟨k, v⟩, kvs⟩) rest hne hs
      · exact absurd rfl hne
      · simp [sizeM] at hs
  | succ f ih =>
    refine ⟨?_, ?_, ?_⟩
    · -- mode 0: a single value
      intro v rest hs ht
      cases v with
      | null =>
        show parseF (f + 1) 0 ('n' :: 'u' :: 'l' :: 'l' :: rest) = _
        simp only [parseF]
        simp +decide [expectChars]
      | bool b =>
        cases b
        · show parseF (f + 1) 0 ('f' :: 'a' :: 'l' :: 's' :: 'e' :: rest) = _
          simp only [parseF]
          simp +decide [expectChars]
        · show parseF (f + 1) 0 ('t' :: 'r' :: 'u' :: 'e' :: rest) = _
          simp only [parseF]
          simp +decide [expectChars]
      | num n =>
        exact parseF_printInt f n rest ht
      | str s =>
        show parseF (f + 1) 0 (('"' :: printChars s.data ['"']) ++ rest) = _
        rw [List.cons_append, printChars_split]
        simp only [parseF]
        simp +decide only []
        rw [show (['"'] ++ rest : List Char) = '"' :: rest from rfl]
        rw [parseStr_printChars s.data rest]
        simp [stringMkData]
      | arr xs =>
        cases xs with
        | nil =>
          show parseF (f + 1) 0 ('[' :: ']' :: rest) = _
          simp only [parseF]
          simp +decide
        | cons x xs =>
          have hsz : sizeL (x :: xs) ≤ f := by
            have h1 := hs
            simp only [sizeV] at h1
            omega
          show parseF (f + 1) 0 (('[' :: (printItems (x :: xs) ++ [']'])) ++ rest) = _
          rw [List.cons_append, List.append_assoc,
            show ([']'] ++ rest : List Char) = ']' :: rest from rfl]
          simp only [parseF]
          simp +decide
          rw [ih.2.1 (x :: xs) rest (by simp) hsz]
          obtain ⟨c, cs, hpi, hc1, hc2⟩ := printItems_head x xs
          rw [hpi, List.cons_append]
          split
          · rename_i r2 heq
            rw [List.cons_eq_cons] at heq
            exact absurd heq.1 hc1
          · rfl
      | obj kvs =>
        cases kvs with
        | nil =>
          show parseF (f + 1) 0 ('\x7b' :: '\x7d' :: rest) = _
          simp only [parseF]
          simp +decide
        | cons kv kvs =>
          obtain ⟨k, v⟩ := kv
          have hsz : sizeM ((k, v) :: kvs) ≤ f := by
            have h1 := hs
            simp only [sizeV] at h1
            omega
          show parseF (f + 1) 0 (('\x7b' :: (printMembers ((k, v) :: kvs) ++ ['\x7d'])) ++ rest) = _
          rw [List.cons_append, List.append_assoc,
            show (['\x7d'] ++ rest : List Char) = '\x7d' :: rest from rfl]
          simp only [parseF]
          simp +decide
          rw [ih.2.2 ((k, v) :: kvs) rest (by simp) hsz]
          have hpm : ∃ cs, printMembers ((k, v) :: kvs) = '"' :: cs := by
            cases kvs with
            | nil => exact ⟨_, rfl⟩
            | cons kv2 kvs2 => exact ⟨_, rfl⟩
          obtain ⟨cs, hpm⟩ := hpm
          rw [hpm, List.cons_append]
          split
          · rename_i r2 heq
            rw [List.cons_eq_cons] at heq
            exact absurd heq.1 (by decide)
          · rfl
    · -- mode 1: array items
      rintro (_ | ⟨x, xs⟩) rest hne hsz
      · exact absurd rfl hne
      cases xs with
      | nil =>
        show parseF (f + 1) 1 (printVal x ++ ']' :: rest) = _
        simp only [parseF]
        have hx : sizeV x ≤ f := by
          simp only [sizeL] at hsz
          omega
        rw [ih.1 x (']' :: rest) hx (tailOk_cons x ']' rest (by decide))]
        rfl
      | cons y ys =>
        show parseF (f + 1) 1 ((printVal x ++ ',' :: printItems (y :: ys)) ++ ']' :: rest) = _
        rw [List.append_assoc, List.cons_append]
        simp only [parseF]
        have hx : sizeV x ≤ f := by
          simp only [sizeL] at hsz
          omega
        have hys : sizeL (y :: ys) ≤ f := by
          have h2 := sizeV_pos x
          simp only [sizeL] at hsz ⊢
          omega
        rw [ih.1 x _ hx (tailOk_cons x ',' _ (by decide))]
        simp [ih.2.1 (y :: ys) rest (by simp) hys]
    · -- mode 2: object members
      rintro (_ | ⟨⟨k, v⟩, kvs⟩) rest hne hsz
      · exact absurd rfl hne
      have hv : sizeV v ≤ f := by
        simp only [sizeM] at hsz
        omega
      cases kvs with
      | nil =>
        show parseF (f + 1) 2
          (('"' :: printChars k.data ('"' :: ':' :: printVal v)) ++ '\x7d' :: rest) = _
        rw [List.cons_append, printChars_split]
        simp only [parseF]
        rw [show (('"' :: ':' :: printVal v) ++ '\x7d' :: rest : List Char) =
          '"' :: ':' :: (printVal v ++ '\x7d' :: rest) from by simp]
        rw [parseStr_printChars k.data _]
        simp [ih.1 v _ hv (tailOk_cons v '\x7d' rest (by decide)), stringMkData]
      | cons kv2 kvs2 =>
        show parseF (f + 1) 2
          ((('"' :: printChars k.data ('"' :: ':' :: printVal v)) ++
            ',' :: printMembers (kv2 :: kvs2)) ++ '\x7d' :: rest) = _
        rw [List.append_assoc, List.cons_append, List.cons_append, printChars_split]
        simp only [parseF]
        rw [show (('"' :: ':' :: printVal v) ++ ',' :: (printMembers (kv2 :: kvs2) ++
          '\x7d' :: rest) : List Char) =
          '"' :: ':' :: (printVal v ++ ',' :: (printMembers (kv2 :: kvs2) ++ '\x7d' :: rest))
          from by simp]
        rw [parseStr_printChars k.data _]
        have hkvs : sizeM (kv2 :: kvs2) ≤ f := by
          have h2 := sizeV_pos v
          simp only [sizeM] at hsz ⊢
          omega
        simp [ih.1 v _ hv (tailOk_cons v ',' _ (by decide)),
          ih.2.2 (kv2 :: kvs2) rest (by simp) hkvs, stringMkData]

theorem printChars_len (s t : List Char) : t.length ≤ (printChars s t).length := by
  have h := printChars_split s [] t
  rw [List.nil_append] at h
  rw [← h, List.length_append]
  omega

theorem printInt_len (n : Int) : 1 ≤ (printInt n).length := by
  obtain ⟨c, cs, heq, _⟩ := natDigits_head n.natAbs
  unfold printInt
  split <;> simp [heq]

theorem size_le_len (n : Nat) :
    (∀ v, sizeV v ≤ n → sizeV v ≤ (printVal v).length) ∧
    (∀ xs, sizeL xs ≤ n → sizeL xs ≤ (printItems xs).length + 1) ∧
    (∀ kvs, sizeM kvs ≤ n → sizeM kvs ≤ (printMembers kvs).length + 1) := by
  induction n with
  | zero =>
    refine ⟨fun v hs => absurd hs (by have := sizeV_pos v; omega), ?_, ?_⟩
    · rintro (_ | ⟨x, xs⟩) hs
      · simp [sizeL]
      · simp [sizeL] at hs
    · rintro (_ | ⟨⟨k, v⟩, kvs⟩) hs
      · simp [sizeM]
      · simp [sizeM] at hs
  | succ n ih =>
    refine ⟨?_, ?_, ?_⟩
    · intro v hs
      cases v with
      | null => simp [sizeV, printVal]
      | bool b => cases b <;> simp [sizeV, printVal]
      | num m =>
        have := printInt_len m
        simp only [sizeV, printVal]
        omega
      | str s => simp [sizeV, printVal]
      | arr xs =>
        cases xs with
        | nil => simp [sizeV, sizeL, printVal]
        | cons x xs =>
          have hsz : sizeL (x :: xs) ≤ n := by
            simp only [sizeV] at hs
            omega
          have h1 := ih.2.1 (x :: xs) hsz
          simp only [sizeV, printVal, List.length_cons, List.length_append,
            List.length_nil]
          omega
      | obj kvs =>
        cases kvs with
        | nil => simp [sizeV, sizeM, printVal]
        | cons kv kvs =>
          obtain ⟨k, v⟩ := kv
          have hsz : sizeM ((k, v) :: kvs) ≤ n := by
            simp only [sizeV] at hs
            omega
          have h1 := ih.2.2 ((k, v) :: kvs) hsz
          simp only [sizeV, printVal, List.length_cons, List.length_append,
            List.length_nil]
          omega
    · rintro (_ | ⟨x, xs⟩) hs
      · simp [sizeL]
      cases xs with
      | nil =>
        have hx : sizeV x ≤ n := by
          simp only [sizeL] at hs
          omega
        have h1 := ih.1 x hx
        simp only [sizeL, sizeV]
        rw [show printItems [x] = printVal x from rfl]
        omega
      | cons y ys =>
        have hx : sizeV x ≤ n := by
          simp only [sizeL] at hs
          omega
        have hys : sizeL (y :: ys) ≤ n := by
          have h2 := sizeV_pos x
          simp only [sizeL] at hs ⊢
          omega
        have h1 := ih.1 x hx
        have h2 := ih.2.1 (y :: ys) hys
        rw [show printItems (x :: y :: ys) = printVal x ++ ',' :: printItems (y :: ys)
          from rfl]
        simp only [sizeL, List.length_append, List.length_cons] at h2 ⊢
        omega
    · rintro (_ | ⟨⟨k, v⟩, kvs⟩) hs
      · simp [sizeM]
      have hv : sizeV v ≤ n := by
        simp only [sizeM] at hs
        omega
      have h1 := ih.1 v hv
      cases kvs with
      | nil =>
        rw [show printMembers [(k, v)] =
          '"' :: printChars k.data ('"' :: ':' :: printVal v) from rfl]
        have h3 := printChars_len k.data ('"' :: ':' :: printVal v)
        simp only [sizeM, List.length_cons] at h3 ⊢
        omega
      | cons kv2 kvs2 =>
        have hkvs : sizeM (kv2 :: kvs2) ≤ n := by
          have h2 := sizeV_pos v
          simp only [sizeM] at hs ⊢
          omega
        have h2 := ih.2.2 (kv2 :: kvs2) hkvs
        rw [show printMembers ((k, v) :: kv2 :: kvs2) =
          ('"' :: printChars k.data ('"' :: ':' :: printVal v)) ++
            ',' :: printMembers (kv2 :: kvs2) from rfl]
        have h3 := printChars_len k.data ('"' :: ':' :: printVal v)
        simp only [sizeM, List.length_append, List.length_cons] at h2 h3 ⊢
        omega

/-- Round trip of the JSON embedding: parsing a stringified value gives
back the value.  This is the `JSON.parse ∘ JSON.stringify` identity the
JavaScript code relies on. -/
theorem Json.parse_stringify (v : Json) : Json.parse (Json.stringify v) = some v := by
  unfold Json.parse Json.stringify
  have hfuel : sizeV v ≤ (printVal v).length + 1 := by
    have := (size_le_len (sizeV v)).1 v le_rfl
    omega
  have h := (parseF_print ((printVal v).length + 1)).1 v [] hfuel (tailOk_nil v)
  rw [List.append_nil] at h
  rw [show (String.mk (printVal v)).data = printVal v from rfl, h]

theorem Json.stringify_inj (a b : Json) (h : Json.stringify a = Json.stringify b) :
    a = b := by
  have ha := Json.parse_stringify a
  rw [h, Json.parse_stringify b] at ha
  exact (Option.some_inj.mp ha).symm

theorem Json.stringify_ne_empty (v : Json) : (Json.stringify v == "") = false := by
  obtain ⟨c, cs, heq, _, _⟩ := printVal_head v
  unfold Json.stringify
  rw [heq]
  simp only [beq_eq_false_iff_ne]
  intro hcontra
  simpa using congrArg String.data hcontra

/-! ## Store lemmas -/

namespace RedisState

theorem lookup_empty (k : String) : RedisState.empty.lookup k = none := rfl

theorem find_map_self (k : String) (v : RVal) (t : Option Int) :
    ∀ l : List (String × RVal × Option Int), l.any (fun e => e.1 == k) = true →
      (l.map fun e => if e.1 == k then (k, v, t) else e).find?
        (fun e => e.1 == k) = some (k, v, t) := by
  intro l
  induction l with
  | nil => intro h; simp at h
  | cons e l ih =>
    intro h
    by_cases he : (e.1 == k) = true
    · rw [List.map_cons, if_pos he, List.find?_cons_of_pos _ (by simp)]
    · have hl : l.any (fun e => e.1 == k) = true := by
        simp [List.any_cons, he] at h
        simpa using h
      rw [List.map_cons, if_neg he, List.find?_cons_of_neg _ (by simpa using he)]
      exact ih hl

theorem lookup_insert (st : RedisState) (k : String) (v : RVal) (t : Option Int) :
    (st.insert k v t).lookup k = some (v, t) := by
  unfold insert lookup
  split
  · rename_i h
    rw [find_map_self k v t st.entries h]
    rfl
  · simp [List.find?]

theorem find_map_ne (k k' : String) (v : RVal) (t : Option Int) (hne : (k == k') = false) :
    ∀ l : List (String × RVal × Option Int),
      (l.map fun e => if e.1 == k then (k, v, t) else e).find? (fun e => e.1 == k') =
        l.find? (fun e => e.1 == k') := by
  intro l
  induction l with
  | nil => rfl
  | cons e l ih =>
    by_cases he : (e.1 == k) = true
    · have he2 : (e.1 == k') = false := by
        have h3 : e.1 = k := by simpa using he
        rw [h3]
        exact hne
      rw [List.map_cons, if_pos he, List.find?_cons_of_neg _ (by simpa using hne),
        List.find?_cons_of_neg _ (by simpa using he2)]
      exact ih
    · rw [List.map_cons, if_neg he]
      cases hfind : (e.1 == k') with
      | true =>
        rw [List.find?_cons_of_pos _ (by simpa using hfind),
          List.find?_cons_of_pos _ (by simpa using hfind)]
      | false =>
        rw [List.find?_cons_of_neg _ (by simpa using hfind),
          List.find?_cons_of_neg _ (by simpa using hfind)]
        exact ih

theorem lookup_insert_ne (st : RedisState) (k k' : String) (v : RVal) (t : Option Int)
    (hne : (k == k') = false) : (st.insert k v t).lookup k' = st.lookup k' := by
  unfold insert lookup
  split
  · rw [find_map_ne k k' v t hne st.entries]
  · simp only [List.find?, hne]

end RedisState

theorem stringAppend_inj (p a b : String) (h : p ++ a = p ++ b) : a = b := by
  have hd : p.data ++ a.data = p.data ++ b.data := by
    have h1 := congrArg String.data h
    simpa [String.data_append] using h1
  have h2 := List.append_cancel_left hd
  cases a
  cases b
  exact congrArg String.mk h2

theorem stringAppend_beq_false (p a b : String) (h : a ≠ b) :
    ((p ++ a) == (p ++ b)) = false := by
  rw [beq_eq_false_iff_ne]
  intro hcontra
  exact h (stringAppend_inj p a b hcontra)

/-! ## Rate limiter step lemmas -/

namespace rateLimiter

theorem checkLimit_fresh (st : RedisState) (identifier : String) (mx wn now : Int)
    (hfresh : st.lookup ("ratelimit:" ++ identifier) = none) (hwn : 0 < wn) :
    checkLimit st false false false identifier mx wn now =
      (⟨decide ((1 : Int) ≤ mx), 1, max 0 (mx - 1), some (now + wn * 1000)⟩,
        (st.insert ("ratelimit:" ++ identifier) (RVal.int 1) none).insert
          ("ratelimit:" ++ identifier) (RVal.int 1) (some wn)) := by
  have hnle : ¬wn ≤ 0 := by omega
  have hgt : (0 : Int) < wn := hwn
  unfold checkLimit RedisState.incr RedisState.expire RedisState.ttl
  simp only [hfresh, Bool.false_eq_true, if_false, RedisState.lookup_insert,
    if_neg hnle]
  simp +decide only []
  simp [RedisState.lookup_insert, hwn, show wn > 0 from hwn]

theorem checkLimit_next_some (st : RedisState) (identifier : String)
    (mx wn now n tv : Int)
    (hl : st.lookup ("ratelimit:" ++ identifier) = some (RVal.int n, some tv))
    (hne : ¬n + 1 = 1) :
    checkLimit st false false false identifier mx wn now =
      (⟨decide (n + 1 ≤ mx), n + 1, max 0 (mx - (n + 1)),
        if tv > 0 then some (now + tv * 1000) else none⟩,
        st.insert ("ratelimit:" ++ identifier) (RVal.int (n + 1)) (some tv)) := by
  have hb : ((n + 1 : Int) == 1) = false := by simpa using hne
  unfold checkLimit RedisState.incr RedisState.ttl
  simp only [hl, Bool.false_eq_true, if_false, hb, Bool.false_and, Bool.and_false,
    RedisState.lookup_insert]

theorem checkLimit_next_none (st : RedisState) (identifier : String) (mx wn now n : Int)
    (hl : st.lookup ("ratelimit:" ++ identifier) = some (RVal.int n, none))
    (hne : ¬n + 1 = 1) :
    checkLimit st false false false identifier mx wn now =
      (⟨decide (n + 1 ≤ mx), n + 1, max 0 (mx - (n + 1)), none⟩,
        st.insert ("ratelimit:" ++ identifier) (RVal.int (n + 1)) none) := by
  have hb : ((n + 1 : Int) == 1) = false := by simpa using hne
  unfold checkLimit RedisState.incr RedisState.ttl
  simp only [hl, Bool.false_eq_true, if_false, hb, Bool.false_and, Bool.and_false,
    RedisState.lookup_insert]
  simp +decide [RedisState.lookup_insert]

end rateLimiter

/-! ## Claim theorems: rate limiter -/

/-- Successive `checkLimit(identifier, 3, 60)` calls without failures,
threading the store state; `rlCalls st identifier now 0` is the initial
dummy pair carrying the starting state. -/
def rlCalls (st : RedisState) (identifier : String) (now : Int) :
    Nat → rateLimiter.RLResult × RedisState
  | 0 => (rateLimiter.failResult 0, st)
  | n + 1 =>
    rateLimiter.checkLimit (rlCalls st identifier now n).2 false false false
      identifier 3 60 now

/-- C1: for a fresh identifier and maxRequests 3, windowSeconds 60,
successive checkLimit calls return count 1, 2, 3 with allowed true and
remaining 2, 1, 0; the fourth call returns allowed false, count 4,
remaining 0; on every call allowed equals the comparison count ≤ 3 and
remaining equals max 0 (3 - count). -/
theorem C1_rateLimiter_window (st : RedisState) (identifier : String) (now : Int)
    (hfresh : st.lookup ("ratelimit:" ++ identifier) = none) :
    ((rlCalls st identifier now 1).1.allowed = true ∧
      (rlCalls st identifier now 1).1.count = 1 ∧
      (rlCalls st identifier now 1).1.remaining = 2) ∧
    ((rlCalls st identifier now 2).1.allowed = true ∧
      (rlCalls st identifier now 2).1.count = 2 ∧
      (rlCalls st identifier now 2).1.remaining = 1) ∧
    ((rlCalls st identifier now 3).1.allowed = true ∧
      (rlCalls st identifier now 3).1.count = 3 ∧
      (rlCalls st identifier now 3).1.remaining = 0) ∧
    ((rlCalls st identifier now 4).1.allowed = false ∧
      (rlCalls st identifier now 4).1.count = 4 ∧
      (rlCalls st identifier now 4).1.remaining = 0) ∧
    (∀ i, i < 4 → (rlCalls st identifier now (i + 1)).1.allowed =
      decide ((rlCalls st identifier now (i + 1)).1.count ≤ 3) ∧
      (rlCalls st identifier now (i + 1)).1.remaining =
        max 0 (3 - (rlCalls st identifier now (i + 1)).1.count)) := by
  have h1 := rateLimiter.checkLimit_fresh st identifier 3 60 now hfresh (by norm_num)
  have hl1 : ((st.insert ("ratelimit:" ++ identifier) (RVal.int 1) none).insert
      ("ratelimit:" ++ identifier) (RVal.int 1) (some 60)).lookup
      ("ratelimit:" ++ identifier) = some (RVal.int 1, some 60) :=
    RedisState.lookup_insert _ _ _ _
  have h2 := rateLimiter.checkLimit_next_some _ identifier 3 60 now 1 60 hl1 (by norm_num)
  have hl2 := RedisState.lookup_insert ((st.insert ("ratelimit:" ++ identifier)
    (RVal.int 1) none).insert ("ratelimit:" ++ identifier) (RVal.int 1) (some 60))
    ("ratelimit:" ++ identifier) (RVal.int 2) (some 60)
  have h3 := rateLimiter.checkLimit_next_some _ identifier 3 60 now 2 60 hl2 (by norm_num)
  have hl3 := RedisState.lookup_insert (((st.insert ("ratelimit:" ++ identifier)
    (RVal.int 1) none).insert ("ratelimit:" ++ identifier) (RVal.int 1)
    (some 60)).insert ("ratelimit:" ++ identifier) (RVal.int 2) (some 60))
    ("ratelimit:" ++ identifier) (RVal.int 3) (some 60)
  have h4 := rateLimiter.checkLimit_next_some _ identifier 3 60 now 3 60 hl3 (by norm_num)
  norm_num at h1 h2 h3 h4
  refine ⟨?_, ?_, ?_, ?_, ?_⟩
  · simp only [rlCalls, h1]
    norm_num
  · simp only [rlCalls, h1, h2]
    norm_num
  · simp only [rlCalls, h1, h2, h3]
    norm_num
  · simp only [rlCalls, h1, h2, h3, h4]
    norm_num
  · intro i hi
    match i with
    | 0 => simp only [rlCalls, h1]; norm_num
    | 1 => simp only [rlCalls, h1, h2]; norm_num
    | 2 => simp only [rlCalls, h1, h2, h3]; norm_num
    | 3 => simp only [rlCalls, h1, h2, h3, h4]; norm_num

/-- C1 witness: on the empty store with identifier u, the fourth call is
denied with count 4 and remaining 0. -/
theorem C1_rateLimiter_window_witness :
    (rlCalls RedisState.empty "u" 0 4).1.allowed = false ∧
    (rlCalls RedisState.empty "u" 0 4).1.count = 4 ∧
    (rlCalls RedisState.empty "u" 0 4).1.remaining = 0 :=
  (C1_rateLimiter_window RedisState.empty "u" 0 rfl).2.2.2.1

/-- C2: whenever an awaited store command inside checkLimit fails — the
increment, the TTL lookup, or the conditional expire on the arming call —
the catch block answers `allowed = true`: rate limiting fails open.  The
function is total (never raises), and the catch fallback itself always
carries `allowed = true`. -/
theorem C2_rateLimiter_failOpen (st : RedisState) (fIncr fExpire fTtl : Bool)
    (identifier : String) (mx wn now : Int) :
    (fIncr = true →
      rateLimiter.checkLimit st fIncr fExpire fTtl identifier mx wn now =
        (rateLimiter.failResult mx, st)) ∧
    (fTtl = true →
      (rateLimiter.checkLimit st fIncr fExpire fTtl identifier mx wn now).1.allowed =
        true) ∧
    (fExpire = true → st.lookup ("ratelimit:" ++ identifier) = none →
      (rateLimiter.checkLimit st fIncr fExpire fTtl identifier mx wn now).1.allowed =
        true) ∧
    (rateLimiter.failResult mx).allowed = true := by
  refine ⟨?_, ?_, ?_, rfl⟩
  · intro hI
    subst hI
    rfl
  · intro hT
    subst hT
    cases fIncr with
    | true => rfl
    | false =>
      cases hInc : RedisState.incr st ("ratelimit:" ++ identifier) with
      | none => simp [rateLimiter.checkLimit, hInc, rateLimiter.failResult]
      | some p =>
        obtain ⟨c, st1⟩ := p
        simp only [rateLimiter.checkLimit, hInc, Bool.false_eq_true, if_false]
        split_ifs <;> simp [rateLimiter.failResult]
  · intro hE hfresh
    subst hE
    cases fIncr with
    | true => rfl
    | false =>
      simp [rateLimiter.checkLimit, RedisState.incr, hfresh, rateLimiter.failResult]

/-- C2 witness: with a failing TTL lookup on the empty store, the call
still reports `allowed = true`. -/
theorem C2_rateLimiter_failOpen_witness :
    (rateLimiter.checkLimit RedisState.empty false false true "u" 3 60 0).1.allowed =
      true :=
  (C2_rateLimiter_failOpen RedisState.empty false false true "u" 3 60 0).2.1 rfl

/-- C3: the window-arming TTL behaviour of checkLimit.  On a fresh
identifier the counter's TTL is set to windowSeconds; on any later call
in the window (counter already at n ≥ 1) the stored TTL is left exactly
as it was — never re-armed — so across calls 2..N the TTL is
non-increasing as time passes. -/
theorem C3_rateLimiter_ttl_arming (st : RedisState) (identifier : String)
    (mx wn now : Int) :
    (st.lookup ("ratelimit:" ++ identifier) = none → 0 < wn →
      (rateLimiter.checkLimit st false false false identifier mx wn now).2.ttl
        ("ratelimit:" ++ identifier) = wn) ∧
    (∀ n tv, st.lookup ("ratelimit:" ++ identifier) = some (RVal.int n, some tv) →
      1 ≤ n →
      (rateLimiter.checkLimit st false false false identifier mx wn now).2.lookup
        ("ratelimit:" ++ identifier) = some (RVal.int (n + 1), some tv) ∧
      (rateLimiter.checkLimit st false false false identifier mx wn now).2.ttl
        ("ratelimit:" ++ identifier) = st.ttl ("ratelimit:" ++ identifier)) := by
  constructor
  · intro hfresh hwn
    rw [rateLimiter.checkLimit_fresh st identifier mx wn now hfresh hwn]
    simp only [RedisState.ttl, RedisState.lookup_insert]
  · intro n tv hl hn
    rw [rateLimiter.checkLimit_next_some st identifier mx wn now n tv hl (by omega)]
    refine ⟨RedisState.lookup_insert _ _ _ _, ?_⟩
    simp only [RedisState.ttl, RedisState.lookup_insert, hl]

/-- C3 witness: arming on the empty store gives TTL 60; a second call on
a counter at 1 with 42 seconds left keeps the TTL at 42. -/
theorem C3_rateLimiter_ttl_arming_witness :
    (rateLimiter.checkLimit RedisState.empty false false false "u" 3 60 0).2.ttl
      ("ratelimit:" ++ "u") = 60 ∧
    (rateLimiter.checkLimit ⟨[("ratelimit:u", RVal.int 1, some 42)]⟩ false false false
      "u" 3 60 0).2.ttl ("ratelimit:" ++ "u") =
      RedisState.ttl ⟨[("ratelimit:u", RVal.int 1, some 42)]⟩ ("ratelimit:" ++ "u") :=
  ⟨(C3_rateLimiter_ttl_arming RedisState.empty "u" 3 60 0).1 rfl (by norm_num),
   ((C3_rateLimiter_ttl_arming ⟨[("ratelimit:u", RVal.int 1, some 42)]⟩ "u" 3 60 0).2
     1 42 (by rfl) (by norm_num)).2⟩

/-- C8 counterexample: with the counter at 5 and maxRequests 3, a failing
TTL lookup makes the whole call land in the catch block: the result is
the fail-open default with count 0 and allowed true — not the real
incremented count 6 with allowed false that the claim asserts. -/
theorem C8_counterexample :
    (rateLimiter.checkLimit ⟨[("ratelimit:x", RVal.int 5, some 30)]⟩ false false true
      "x" 3 60 0).1.resetTime = none ∧
    (rateLimiter.checkLimit ⟨[("ratelimit:x", RVal.int 5, some 30)]⟩ false false true
      "x" 3 60 0).1.count = 0 ∧
    ((rateLimiter.checkLimit ⟨[("ratelimit:x", RVal.int 5, some 30)]⟩ false false true
      "x" 3 60 0).1.count = 5 + 1 → False) ∧
    (rateLimiter.checkLimit ⟨[("ratelimit:x", RVal.int 5, some 30)]⟩ false false true
      "x" 3 60 0).1.allowed = true := by
  refine ⟨rfl, rfl, ?_, rfl⟩
  intro h
  exact absurd h (by decide)

/-- C8 amended: a failing TTL lookup sends checkLimit into the catch
block, which returns the whole fail-open default — resetTime nil but also
count 0 and allowed true, not the authoritative counter value.  When the
TTL lookup succeeds but the counter has no TTL, resetTime is nil while
count and allowed do reflect the real incremented counter. -/
theorem C8_rateLimiter_resetTime (st : RedisState) (identifier : String)
    (mx wn now : Int) :
    (∀ fI fE : Bool,
      (rateLimiter.checkLimit st fI fE true identifier mx wn now).1 =
        rateLimiter.failResult mx) ∧
    (∀ n, st.lookup ("ratelimit:" ++ identifier) = some (RVal.int n, none) → 1 ≤ n →
      (rateLimiter.checkLimit st false false false identifier mx wn now).1 =
        ⟨decide (n + 1 ≤ mx), n + 1, max 0 (mx - (n + 1)), none⟩) := by
  constructor
  · intro fI fE
    cases fI with
    | true => rfl
    | false =>
      cases hInc : RedisState.incr st ("ratelimit:" ++ identifier) with
      | none => simp [rateLimiter.checkLimit, hInc]
      | some p =>
        obtain ⟨c, st1⟩ := p
        simp only [rateLimiter.checkLimit, hInc, Bool.false_eq_true, if_false]
        split_ifs <;> rfl
  · intro n hl hn
    rw [rateLimiter.checkLimit_next_none st identifier mx wn now n hl (by omega)]

/-- C8 amended witness: counter at 2 with no TTL, maxRequests 3 — the
call returns count 3, allowed true, resetTime nil; and a failing TTL
lookup on the same store returns the fail-open default. -/
theorem C8_rateLimiter_resetTime_witness :
    (rateLimiter.checkLimit ⟨[("ratelimit:x", RVal.int 2, none)]⟩ false false true
      "x" 3 60 0).1 = rateLimiter.failResult 3 ∧
    (rateLimiter.checkLimit ⟨[("ratelimit:x", RVal.int 2, none)]⟩ false false false
      "x" 3 60 0).1 = ⟨decide ((2 : Int) + 1 ≤ 3), 2 + 1, max 0 (3 - (2 + 1)), none⟩ :=
  ⟨(C8_rateLimiter_resetTime ⟨[("ratelimit:x", RVal.int 2, none)]⟩ "x" 3 60 0).1
     false false,
   (C8_rateLimiter_resetTime ⟨[("ratelimit:x", RVal.int 2, none)]⟩ "x" 3 60 0).2
     2 (by rfl) (by norm_num)⟩

/-! ## Claim theorems: cache -/

theorem cacheSet_zero (st : RedisState) (key : String) (value : Json) :
    cache.set st false key value 0 =
      (true, st.insert key (RVal.str (Json.stringify value)) none) := by
  simp [cache.set, RedisState.setPlain]

theorem cacheSet_pos (st : RedisState) (key : String) (value : Json)
    (ttlSeconds : Int) (hz : ¬ttlSeconds = 0) (hpos : ¬ttlSeconds ≤ 0) :
    cache.set st false key value ttlSeconds =
      (true, st.insert key (RVal.str (Json.stringify value)) (some ttlSeconds)) := by
  simp [cache.set, RedisState.setex, hz, hpos]

theorem cacheSet_neg (st : RedisState) (key : String) (value : Json)
    (ttlSeconds : Int) (hz : ¬ttlSeconds = 0) (hneg : ttlSeconds ≤ 0) :
    cache.set st false key value ttlSeconds = (false, st) := by
  simp [cache.set, RedisState.setex, hz, hneg]

theorem cacheGet_str (st : RedisState) (key : String) (s : String) (t : Option Int)
    (hl : st.lookup key = some (RVal.str s, t)) :
    cache.get st false key = (if s == "" then Json.null else (Json.parse s).getD Json.null) := by
  simp [cache.get, hl]

/-- C6: for every key, value and TTL, when `cache.set` succeeds (no store
error, so in particular no invalid-expire rejection), an immediate
`cache.get` of the same key returns a value equal to the one stored: the
serialize-then-deserialize round trip is the identity. -/
theorem C6_cache_set_get_roundtrip (st : RedisState) (key : String) (value : Json)
    (ttlSeconds : Int) (hok : (cache.set st false key value ttlSeconds).1 = true) :
    cache.get (cache.set st false key value ttlSeconds).2 false key = value := by
  by_cases hz : ttlSeconds = 0
  · subst hz
    rw [cacheSet_zero st key value]
    rw [cacheGet_str _ key (Json.stringify value) none (RedisState.lookup_insert _ _ _ _)]
    rw [Json.stringify_ne_empty]
    simp [Json.parse_stringify]
  · by_cases hneg : ttlSeconds ≤ 0
    · rw [cacheSet_neg st key value ttlSeconds hz hneg] at hok
      simp at hok
    · rw [cacheSet_pos st key value ttlSeconds hz hneg]
      rw [cacheGet_str _ key (Json.stringify value) (some ttlSeconds)
        (RedisState.lookup_insert _ _ _ _)]
      rw [Json.stringify_ne_empty]
      simp [Json.parse_stringify]

/-- C6 witness: storing the number 1 under key k with TTL 60 and reading
it back gives the number 1. -/
theorem C6_cache_set_get_roundtrip_witness :
    cache.get (cache.set RedisState.empty false "k" (Json.num 1) 60).2 false "k" =
      Json.num 1 :=
  C6_cache_set_get_roundtrip RedisState.empty "k" (Json.num 1) 60 rfl

/-- C7 counterexample: `cache.set` with ttlSeconds 0 is not rejected: it
returns true and the key is stored with no expiry at all (TTL probe
yields -1, the no-expiry answer), contradicting the claimed minimum-TTL
rejection. -/
theorem C7_counterexample :
    (cache.set RedisState.empty false "k" (Json.num 1) 0).1 = true ∧
    (cache.set RedisState.empty false "k" (Json.num 1) 0).2.ttl "k" = -1 := by
  constructor
  · rfl
  · rfl

theorem RedisState.tick_lookup_none (l : List (String × RVal × Option Int))
    (k : String) (v : RVal) (d : Nat) :
    (RedisState.mk l).lookup k = some (v, none) →
      ((RedisState.mk l).tick d).lookup k = some (v, none) := by
  induction l with
  | nil => intro h; simp [RedisState.lookup, List.find?] at h
  | cons e l ih =>
    intro h
    obtain ⟨k1, v1, t1⟩ := e
    unfold RedisState.lookup at h
    dsimp only at h
    unfold RedisState.tick
    dsimp only
    rw [List.filterMap_cons]
    by_cases hk : (k1 == k) = true
    · have hp : (fun (e : String × RVal × Option Int) => e.1 == k) (k1, v1, t1) = true := hk
      rw [@List.find?_cons_of_pos _ (fun (e : String × RVal × Option Int) => e.1 == k)
        (k1, v1, t1) l hp] at h
      simp at h
      obtain ⟨rfl, rfl⟩ := h
      dsimp only
      unfold RedisState.lookup
      dsimp only
      rw [@List.find?_cons_of_pos _ (fun (e : String × RVal × Option Int) => e.1 == k)
        (k1, v1, none) _ hk]
      rfl
    · have hp : ¬((fun (e : String × RVal × Option Int) => e.1 == k) (k1, v1, t1) = true) := by
        simpa using hk
      rw [@List.find?_cons_of_neg _ (fun (e : String × RVal × Option Int) => e.1 == k)
        (k1, v1, t1) l hp] at h
      have htail : ((RedisState.mk l).tick d).lookup k = some (v, none) := ih h
      unfold RedisState.tick at htail
      dsimp only at htail
      cases t1 with
      | none =>
        dsimp only
        unfold RedisState.lookup at htail ⊢
        dsimp only at htail ⊢
        rw [@List.find?_cons_of_neg _ (fun (e : String × RVal × Option Int) => e.1 == k)
          (k1, v1, none) _ (by simpa using hk)]
        exact htail
      | some tv =>
        by_cases hexp : tv ≤ (d : Int)
        · dsimp only
          rw [if_pos hexp]
          exact htail
        · dsimp only
          rw [if_neg hexp]
          unfold RedisState.lookup at htail ⊢
          dsimp only at htail ⊢
          rw [@List.find?_cons_of_neg _ (fun (e : String × RVal × Option Int) => e.1 == k)
            (k1, v1, some (tv - (d : Int))) _ (by simpa using hk)]
          exact htail

/-- C7 amended: ttlSeconds 0 is treated as a falsy TTL, so the key is
stored by plain SET with no expiry: the call succeeds, the key survives
any passage of time (persists until explicit deletion), and no
minimum-TTL validation exists for 0 — only a negative TTL makes the
store's SETEX reject, reported as false.  Omitting the argument in
JavaScript uses the 3600-second default instead. -/
theorem C7_cache_ttl_semantics (st : RedisState) (key : String) (value : Json) :
    cache.set st false key value 0 =
      (true, st.insert key (RVal.str (Json.stringify value)) none) ∧
    (∀ d : Nat, ((cache.set st false key value 0).2.tick d).lookup key =
      some (RVal.str (Json.stringify value), none)) ∧
    (∀ t : Int, t < 0 → cache.set st false key value t = (false, st)) := by
  refine ⟨cacheSet_zero st key value, ?_, ?_⟩
  · intro d
    rw [cacheSet_zero st key value]
    exact RedisState.tick_lookup_none _ key _ d (RedisState.lookup_insert _ _ _ _)
  · intro t ht
    exact cacheSet_neg st key value t (by omega) (by omega)

/-! ## Claim theorems: conversation state -/

/-- C5: updateStep on a stored state with step 1 and contextData a=1
overwrites step with 2, shallow-merges the new contextData so the old key
a is preserved and b is added, stamps updatedAt, and re-stores; reading
the state back shows exactly that merged document. -/
theorem C5_conversation_merge (st : RedisState) (p : String) (t0 : Option Int)
    (ts : String)
    (hl : st.lookup ("conversation:" ++ p) =
      some (RVal.str (Json.stringify (Json.obj [("step", Json.num 1),
        ("contextData", Json.obj [("a", Json.num 1)])])), t0)) :
    (conversationCache.updateStep st false false p (Json.num 2)
      (Json.obj [("b", Json.num 2)]) ts).1 = true ∧
    conversationCache.getState
      (conversationCache.updateStep st false false p (Json.num 2)
        (Json.obj [("b", Json.num 2)]) ts).2 false p =
      Json.obj [("step", Json.num 2),
        ("contextData", Json.obj [("a", Json.num 1), ("b", Json.num 2)]),
        ("updatedAt", Json.str ts)] := by
  have hget : cache.get st false ("conversation:" ++ p) =
      Json.obj [("step", Json.num 1), ("contextData", Json.obj [("a", Json.num 1)])] := by
    rw [cacheGet_str st _ _ t0 hl, Json.stringify_ne_empty]
    simp [Json.parse_stringify]
  have hupd : conversationCache.updateStep st false false p (Json.num 2)
      (Json.obj [("b", Json.num 2)]) ts =
      cache.set st false ("conversation:" ++ p)
        (Json.obj [("step", Json.num 2),
          ("contextData", Json.obj [("a", Json.num 1), ("b", Json.num 2)]),
          ("updatedAt", Json.str ts)]) 7200 := by
    unfold conversationCache.updateStep
    dsimp only
    rw [hget]
    rfl
  rw [hupd, cacheSet_pos st _ _ 7200 (by norm_num) (by norm_num)]
  refine ⟨rfl, ?_⟩
  unfold conversationCache.getState
  rw [cacheGet_str _ _ _ _ (RedisState.lookup_insert _ _ _ _), Json.stringify_ne_empty]
  simp [Json.parse_stringify]

/-- C5 witness: concrete participant with the stored example state. -/
theorem C5_conversation_merge_witness :
    conversationCache.getState
      (conversationCache.updateStep
        ⟨[("conversation:p1",
           RVal.str (Json.stringify (Json.obj [("step", Json.num 1),
             ("contextData", Json.obj [("a", Json.num 1)])])), some 7200)]⟩
        false false "p1" (Json.num 2) (Json.obj [("b", Json.num 2)]) "t").2 false "p1" =
      Json.obj [("step", Json.num 2),
        ("contextData", Json.obj [("a", Json.num 1), ("b", Json.num 2)]),
        ("updatedAt", Json.str "t")] :=
  (C5_conversation_merge
    ⟨[("conversation:p1",
       RVal.str (Json.stringify (Json.obj [("step", Json.num 1),
         ("contextData", Json.obj [("a", Json.num 1)])])), some 7200)]⟩
    "p1" (some 7200) "t" (by rfl)).2

/-! ## Claim theorems: priority queue -/

theorem RedisState.lookup_del (st : RedisState) (k : String) :
    (st.del k).lookup k = none := by
  unfold RedisState.del RedisState.lookup
  dsimp only
  induction st.entries with
  | nil => rfl
  | cons e l ih =>
    by_cases he : (e.1 == k) = true
    · simp only [List.filter_cons, he, Bool.not_true]
      exact ih
    · have hf : (e.1 == k) = false := by simpa using he
      simp only [List.filter_cons, hf, Bool.not_false]
      rw [if_pos trivial]
      rw [@List.find?_cons_of_neg _ (fun e => e.1 == k) e _ (by simp [hf])]
      exact ih

/-- The two-add, two-pop scenario of the PriorityQueue acceptance test:
add a priority-5 job and a priority-10 job, then pop twice.  Returns the
two pop results (each a parsed job and the following state). -/
def queueScenario (st : RedisState) (q : String) (d1 d2 : Json) (now : Int)
    (rand1 rand2 ca1 ca2 : String) :
    (Option Json × RedisState) × (Option Json × RedisState) :=
  let r1 := queue.addJob st false q d1 5 now rand1 ca1
  let r2 := queue.addJob r1.2 false q d2 10 now rand2 ca2
  let p1 := queue.getNextJob r2.2 false q
  let p2 := queue.getNextJob p1.2 false q
  (p1, p2)

/-- The job document whose JSON string addJob stores. -/
def jobDoc (d : Json) (priority now : Int) (rand ca : String) : Json :=
  Json.obj [("id", Json.str ("job:" ++ String.mk (printInt now) ++ ":" ++ rand)),
    ("data", d), ("priority", Json.num priority), ("createdAt", Json.str ca),
    ("status", Json.str "pending")]

theorem jobDoc_ne (d1 d2 : Json) (pr1 pr2 now : Int) (rand1 rand2 ca1 ca2 : String)
    (hrand : rand1 ≠ rand2) :
    (Json.stringify (jobDoc d1 pr1 now rand1 ca1) ==
      Json.stringify (jobDoc d2 pr2 now rand2 ca2)) = false := by
  rw [beq_eq_false_iff_ne]
  intro h
  have hj := Json.stringify_inj _ _ h
  unfold jobDoc at hj
  have hlists := Json.obj.inj hj
  have hhead := List.head_eq_of_cons_eq hlists
  have hid : ("job:" ++ String.mk (printInt now) ++ ":" ++ rand1 : String) =
      "job:" ++ String.mk (printInt now) ++ ":" ++ rand2 := by
    have h2 := congrArg Prod.snd hhead
    exact Json.str.inj h2
  exact hrand (stringAppend_inj _ rand1 rand2 hid)

/-- C4: on an empty queue, adding a priority-5 job then a priority-10
job and popping returns the priority-10 job first; the queue length is
then 1, and 0 after a second pop (which returns the priority-5 job); and
popping an empty or nonexistent queue returns null rather than an
error. -/
theorem C4_queue_priority_order (st : RedisState) (q : String) (d1 d2 : Json)
    (now : Int) (rand1 rand2 ca1 ca2 : String)
    (hfresh : st.lookup ("queue:" ++ q) = none) (hrand : rand1 ≠ rand2) :
    (queueScenario st q d1 d2 now rand1 rand2 ca1 ca2).1.1 =
      some (jobDoc d2 10 now rand2 ca2) ∧
    queue.getQueueLength (queueScenario st q d1 d2 now rand1 rand2 ca1 ca2).1.2
      false q = 1 ∧
    (queueScenario st q d1 d2 now rand1 rand2 ca1 ca2).2.1 =
      some (jobDoc d1 5 now rand1 ca1) ∧
    queue.getQueueLength (queueScenario st q d1 d2 now rand1 rand2 ca1 ca2).2.2
      false q = 0 ∧
    (∀ (st2 : RedisState) (q2 : String), st2.lookup ("queue:" ++ q2) = none →
      queue.getNextJob st2 false q2 = (none, st2)) := by
  have hm := jobDoc_ne d1 d2 5 10 now rand1 rand2 ca1 ca2 hrand
  have h1 : queue.addJob st false q d1 5 now rand1 ca1 =
      (some ("job:" ++ String.mk (printInt now) ++ ":" ++ rand1),
        st.insert ("queue:" ++ q)
          (RVal.zset [(5, Json.stringify (jobDoc d1 5 now rand1 ca1))]) none) := by
    unfold queue.addJob RedisState.zadd
    dsimp only
    rw [hfresh]
    rfl
  have h2 : queue.addJob (st.insert ("queue:" ++ q)
        (RVal.zset [(5, Json.stringify (jobDoc d1 5 now rand1 ca1))]) none) false q
        d2 10 now rand2 ca2 =
      (some ("job:" ++ String.mk (printInt now) ++ ":" ++ rand2),
        (st.insert ("queue:" ++ q)
          (RVal.zset [(5, Json.stringify (jobDoc d1 5 now rand1 ca1))]) none).insert
          ("queue:" ++ q)
          (RVal.zset [(5, Json.stringify (jobDoc d1 5 now rand1 ca1)),
            (10, Json.stringify (jobDoc d2 10 now rand2 ca2))]) none) := by
    unfold queue.addJob RedisState.zadd
    dsimp only
    rw [RedisState.lookup_insert]
    simp only [List.any_cons, List.any_nil, Bool.or_false]
    rw [show (Json.obj [("id", Json.str ("job:" ++ String.mk (printInt now) ++ ":" ++
      rand2)), ("data", d2), ("priority", Json.num 10), ("createdAt", Json.str ca2),
      ("status", Json.str "pending")]) = jobDoc d2 10 now rand2 ca2 from rfl]
    rw [hm]
    rfl
  have h3 : queue.getNextJob ((st.insert ("queue:" ++ q)
        (RVal.zset [(5, Json.stringify (jobDoc d1 5 now rand1 ca1))]) none).insert
        ("queue:" ++ q)
        (RVal.zset [(5, Json.stringify (jobDoc d1 5 now rand1 ca1)),
          (10, Json.stringify (jobDoc d2 10 now rand2 ca2))]) none) false q =
      (some (jobDoc d2 10 now rand2 ca2),
        ((st.insert ("queue:" ++ q)
          (RVal.zset [(5, Json.stringify (jobDoc d1 5 now rand1 ca1))]) none).insert
          ("queue:" ++ q)
          (RVal.zset [(5, Json.stringify (jobDoc d1 5 now rand1 ca1)),
            (10, Json.stringify (jobDoc d2 10 now rand2 ca2))]) none).insert
          ("queue:" ++ q)
          (RVal.zset [(5, Json.stringify (jobDoc d1 5 now rand1 ca1))]) none) := by
    unfold queue.getNextJob RedisState.zpopmax
    rw [RedisState.lookup_insert]
    unfold RedisState.zsetMax RedisState.pairMax
    simp +decide only [List.foldl_cons, List.foldl_nil]
    simp +decide [Json.parse_stringify]
  have h4 : queue.getQueueLength (((st.insert ("queue:" ++ q)
        (RVal.zset [(5, Json.stringify (jobDoc d1 5 now rand1 ca1))]) none).insert
        ("queue:" ++ q)
        (RVal.zset [(5, Json.stringify (jobDoc d1 5 now rand1 ca1)),
          (10, Json.stringify (jobDoc d2 10 now rand2 ca2))]) none).insert
        ("queue:" ++ q)
        (RVal.zset [(5, Json.stringify (jobDoc d1 5 now rand1 ca1))]) none) false q =
      1 := by
    unfold queue.getQueueLength RedisState.zcard
    rw [RedisState.lookup_insert]
    rfl
  have h5 : queue.getNextJob (((st.insert ("queue:" ++ q)
        (RVal.zset [(5, Json.stringify (jobDoc d1 5 now rand1 ca1))]) none).insert
        ("queue:" ++ q)
        (RVal.zset [(5, Json.stringify (jobDoc d1 5 now rand1 ca1)),
          (10, Json.stringify (jobDoc d2 10 now rand2 ca2))]) none).insert
        ("queue:" ++ q)
        (RVal.zset [(5, Json.stringify (jobDoc d1 5 now rand1 ca1))]) none) false q =
      (some (jobDoc d1 5 now rand1 ca1),
        (((st.insert ("queue:" ++ q)
          (RVal.zset [(5, Json.stringify (jobDoc d1 5 now rand1 ca1))]) none).insert
          ("queue:" ++ q)
          (RVal.zset [(5, Json.stringify (jobDoc d1 5 now rand1 ca1)),
            (10, Json.stringify (jobDoc d2 10 now rand2 ca2))]) none).insert
          ("queue:" ++ q)
          (RVal.zset [(5, Json.stringify (jobDoc d1 5 now rand1 ca1))]) none).del
          ("queue:" ++ q)) := by
    unfold queue.getNextJob RedisState.zpopmax
    rw [RedisState.lookup_insert]
    unfold RedisState.zsetMax
    simp +decide [Json.parse_stringify]
  have h6 : queue.getQueueLength ((((st.insert ("queue:" ++ q)
        (RVal.zset [(5, Json.stringify (jobDoc d1 5 now rand1 ca1))]) none).insert
        ("queue:" ++ q)
        (RVal.zset [(5, Json.stringify (jobDoc d1 5 now rand1 ca1)),
          (10, Json.stringify (jobDoc d2 10 now rand2 ca2))]) none).insert
        ("queue:" ++ q)
        (RVal.zset [(5, Json.stringify (jobDoc d1 5 now rand1 ca1))]) none).del
        ("queue:" ++ q)) false q = 0 := by
    unfold queue.getQueueLength RedisState.zcard
    rw [RedisState.lookup_del]
    rfl
  refine ⟨?_, ?_, ?_, ?_, ?_⟩
  · simp only [queueScenario, h1, h2, h3]
  · simp only [queueScenario, h1, h2, h3]
    exact h4
  · simp only [queueScenario, h1, h2, h3, h5]
  · simp only [queueScenario, h1, h2, h3, h5]
    exact h6
  · intro st2 q2 hf2
    unfold queue.getNextJob RedisState.zpopmax
    rw [hf2]
    rfl

/-- C4 witness: concrete two-job scenario on the empty store. -/
theorem C4_queue_priority_order_witness :
    (queueScenario RedisState.empty "w" (Json.num 1) (Json.num 2) 0 "a" "b" "c"
      "c").1.1 = some (jobDoc (Json.num 2) 10 0 "b" "c") ∧
    queue.getQueueLength (queueScenario RedisState.empty "w" (Json.num 1)
      (Json.num 2) 0 "a" "b" "c" "c").2.2 false "w" = 0 :=
  ⟨(C4_queue_priority_order RedisState.empty "w" (Json.num 1) (Json.num 2) 0 "a" "b"
      "c" "c" rfl (by decide)).1,
   (C4_queue_priority_order RedisState.empty "w" (Json.num 1) (Json.num 2) 0 "a" "b"
      "c" "c" rfl (by decide)).2.2.2.1⟩

/-- C10: when the cardinality command fails, getQueueLength reports 0 —
exactly the value reported for a genuinely empty (missing) queue key, so
the caller cannot tell a store outage from an empty queue. -/
theorem C10_queueLength_fail_zero (st : RedisState) (q : String) :
    queue.getQueueLength st true q = 0 ∧
    (st.lookup ("queue:" ++ q) = none → queue.getQueueLength st false q = 0) := by
  refine ⟨rfl, fun h => ?_⟩
  unfold queue.getQueueLength RedisState.zcard
  rw [h]
  rfl

/-- C10 witness: the empty store reports length 0 both under a failing
cardinality call and for a genuinely missing queue. -/
theorem C10_queueLength_fail_zero_witness :
    queue.getQueueLength RedisState.empty true "w" = 0 ∧
    queue.getQueueLength RedisState.empty false "w" = 0 :=
  ⟨(C10_queueLength_fail_zero RedisState.empty "w").1,
   (C10_queueLength_fail_zero RedisState.empty "w").2 rfl⟩

/-! ## Session store lemmas -/

theorem listIsPfx_self_append (p x : List Char) :
    RedisState.listIsPfx p (p ++ x) = true := by
  induction p with
  | nil => rfl
  | cons c cs ih => simp [RedisState.listIsPfx, ih]

theorem listIsPfx_sessionKey (s : String) :
    RedisState.listIsPfx "session:".data ("session:" ++ s).data = true := by
  rw [String.data_append]
  exact listIsPfx_self_append _ _

theorem sessionIdOf_append (s : String) :
    sessionStore.sessionIdOf ("session:" ++ s) = s := by
  unfold sessionStore.sessionIdOf
  rw [if_pos (listIsPfx_sessionKey s)]
  rw [String.data_append]
  rw [show ("session:".data ++ s.data).drop 8 = s.data from by
    rw [show "session:".data = ['s', 'e', 's', 's', 'i', 'o', 'n', ':'] from rfl]
    rfl]

theorem filter_singleton_keep (k0 : String) :
    ∀ f : List (String × Json), (∀ e ∈ f, (e.1 == k0) = false) →
      (f.filter fun e => !(k0 == e.1)) = f := by
  intro f
  induction f with
  | nil => intro _; rfl
  | cons e l ih =>
    intro hall
    have he := hall e (by simp)
    have hke : (k0 == e.1) = false := by
      rw [beq_eq_false_iff_ne] at he ⊢
      exact fun hh => he hh.symm
    rw [List.filter_cons]
    simp only [hke, Bool.not_false]
    rw [if_pos trivial]
    rw [ih (fun x hx => hall x (List.mem_cons_of_mem e hx))]

theorem objLookup_foldl_none (k : String) :
    ∀ (kvs : List (String × Json)) (acc : Option Json),
      kvs.foldl (fun acc e => if e.1 == k then some e.2 else acc) acc = none →
      acc = none ∧ ∀ e ∈ kvs, (e.1 == k) = false := by
  intro kvs
  induction kvs with
  | nil => intro acc h; exact ⟨h, by simp⟩
  | cons e l ih =>
    intro acc h
    rw [List.foldl_cons] at h
    obtain ⟨hacc, hall⟩ := ih _ h
    by_cases he : (e.1 == k) = true
    · rw [if_pos he] at hacc
      exact absurd hacc (by simp)
    · rw [if_neg he] at hacc
      refine ⟨hacc, ?_⟩
      intro x hx
      rcases List.mem_cons.mp hx with rfl | hx2
      · simpa using he
      · exact hall x hx2

theorem mergeObj_sessionId (sid : String) (f : List (String × Json))
    (h : objLookup f "sessionId" = none) :
    mergeObj [("sessionId", Json.str sid)] f = ("sessionId", Json.str sid) :: f := by
  have hall := (objLookup_foldl_none "sessionId" f none h).2
  unfold mergeObj
  rw [List.map_cons, List.map_nil]
  dsimp only
  rw [h]
  rw [List.cons_append, List.nil_append]
  congr 1
  simp only [List.any_cons, List.any_nil, Bool.or_false]
  exact filter_singleton_keep "sessionId" f hall

theorem insert_fresh (l : List (String × RVal × Option Int)) (k : String) (v : RVal)
    (t : Option Int) (h : (l.any fun e => e.1 == k) = false) :
    RedisState.insert ⟨l⟩ k v t = ⟨(k, v, t) :: l⟩ := by
  unfold RedisState.insert
  dsimp only
  rw [h]
  simp

/-- C9: storing three sessions for user u with distinct session ids plus
one session of another user, getUserSessions u returns exactly the three
sessions of u — each rebuilt as the stored document with its sessionId
recovered from the namespaced key — in store enumeration order, and the
other user's session is absent. -/
theorem C9_sessions_per_user (s1 s2 s3 s4 u : String)
    (f1 f2 f3 : List (String × Json)) (d4 : Json)
    (h12 : s1 ≠ s2) (h13 : s1 ≠ s3) (h14 : s1 ≠ s4)
    (h23 : s2 ≠ s3) (h24 : s2 ≠ s4) (h34 : s3 ≠ s4)
    (hu1 : objLookup f1 "userId" = some (Json.str u))
    (hu2 : objLookup f2 "userId" = some (Json.str u))
    (hu3 : objLookup f3 "userId" = some (Json.str u))
    (hs1 : objLookup f1 "sessionId" = none)
    (hs2 : objLookup f2 "sessionId" = none)
    (hs3 : objLookup f3 "sessionId" = none)
    (hu4 : sessionStore.userIdMatches d4 u = false) :
    sessionStore.getUserSessions
      ((sessionStore.setSession
        ((sessionStore.setSession
          ((sessionStore.setSession
            ((sessionStore.setSession RedisState.empty false s1 (Json.obj f1)
              86400).2)
            false s2 (Json.obj f2) 86400).2)
          false s3 (Json.obj f3) 86400).2)
        false s4 d4 86400).2)
      false u =
    [Json.obj (("sessionId", Json.str s3) :: f3),
     Json.obj (("sessionId", Json.str s2) :: f2),
     Json.obj (("sessionId", Json.str s1) :: f1)] := by
  have hb12 := stringAppend_beq_false "session:" s1 s2 h12
  have hb13 := stringAppend_beq_false "session:" s1 s3 h13
  have hb14 := stringAppend_beq_false "session:" s1 s4 h14
  have hb23 := stringAppend_beq_false "session:" s2 s3 h23
  have hb24 := stringAppend_beq_false "session:" s2 s4 h24
  have hb34 := stringAppend_beq_false "session:" s3 s4 h34
  have hb21 := stringAppend_beq_false "session:" s2 s1 h12.symm
  have hb31 := stringAppend_beq_false "session:" s3 s1 h13.symm
  have hb41 := stringAppend_beq_false "session:" s4 s1 h14.symm
  have hb32 := stringAppend_beq_false "session:" s3 s2 h23.symm
  have hb42 := stringAppend_beq_false "session:" s4 s2 h24.symm
  have hb43 := stringAppend_beq_false "session:" s4 s3 h34.symm
  have e1 : (sessionStore.setSession RedisState.empty false s1 (Json.obj f1)
      86400).2 =
      ⟨[("session:" ++ s1, RVal.str (Json.stringify (Json.obj f1)), some 86400)]⟩ := by
    unfold sessionStore.setSession
    rw [cacheSet_pos RedisState.empty ("session:" ++ s1) (Json.obj f1) 86400
      (by norm_num) (by norm_num)]
    rfl
  have e2 : (sessionStore.setSession
      (⟨[("session:" ++ s1, RVal.str (Json.stringify (Json.obj f1)), some 86400)]⟩ :
        RedisState) false s2 (Json.obj f2) 86400).2 =
      ⟨[("session:" ++ s2, RVal.str (Json.stringify (Json.obj f2)), some 86400),
        ("session:" ++ s1, RVal.str (Json.stringify (Json.obj f1)), some 86400)]⟩ := by
    unfold sessionStore.setSession
    rw [cacheSet_pos _ ("session:" ++ s2) (Json.obj f2) 86400
      (by norm_num) (by norm_num)]
    dsimp only
    rw [insert_fresh _ _ _ _ (by simp [List.any_cons, hb12])]
  have e3 : (sessionStore.setSession
      (⟨[("session:" ++ s2, RVal.str (Json.stringify (Json.obj f2)), some 86400),
         ("session:" ++ s1, RVal.str (Json.stringify (Json.obj f1)), some 86400)]⟩ :
        RedisState) false s3 (Json.obj f3) 86400).2 =
      ⟨[("session:" ++ s3, RVal.str (Json.stringify (Json.obj f3)), some 86400),
        ("session:" ++ s2, RVal.str (Json.stringify (Json.obj f2)), some 86400),
        ("session:" ++ s1, RVal.str (Json.stringify (Json.obj f1)), some 86400)]⟩ := by
    unfold sessionStore.setSession
    rw [cacheSet_pos _ ("session:" ++ s3) (Json.obj f3) 86400
      (by norm_num) (by norm_num)]
    dsimp only
    rw [insert_fresh _ _ _ _ (by simp [List.any_cons, hb23, hb13])]
  have e4 : (sessionStore.setSession
      (⟨[("session:" ++ s3, RVal.str (Json.stringify (Json.obj f3)), some 86400),
         ("session:" ++ s2, RVal.str (Json.stringify (Json.obj f2)), some 86400),
         ("session:" ++ s1, RVal.str (Json.stringify (Json.obj f1)), some 86400)]⟩ :
        RedisState) false s4 d4 86400).2 =
      ⟨[("session:" ++ s4, RVal.str (Json.stringify d4), some 86400),
        ("session:" ++ s3, RVal.str (Json.stringify (Json.obj f3)), some 86400),
        ("session:" ++ s2, RVal.str (Json.stringify (Json.obj f2)), some 86400),
        ("session:" ++ s1, RVal.str (Json.stringify (Json.obj f1)), some 86400)]⟩ := by
    unfold sessionStore.setSession
    rw [cacheSet_pos _ ("session:" ++ s4) d4 86400 (by norm_num) (by norm_num)]
    dsimp only
    rw [insert_fresh _ _ _ _ (by simp [List.any_cons, hb34, hb24, hb14])]
  rw [e1, e2, e3, e4]
  have hkeys : RedisState.keysMatching
      ⟨[("session:" ++ s4, RVal.str (Json.stringify d4), some 86400),
        ("session:" ++ s3, RVal.str (Json.stringify (Json.obj f3)), some 86400),
        ("session:" ++ s2, RVal.str (Json.stringify (Json.obj f2)), some 86400),
        ("session:" ++ s1, RVal.str (Json.stringify (Json.obj f1)), some 86400)]⟩
      "session:" =
      ["session:" ++ s4, "session:" ++ s3, "session:" ++ s2, "session:" ++ s1] := by
    unfold RedisState.keysMatching
    simp [RedisState.listIsPfx]
  have hl4 : RedisState.lookup
      ⟨[("session:" ++ s4, RVal.str (Json.stringify d4), some 86400),
        ("session:" ++ s3, RVal.str (Json.stringify (Json.obj f3)), some 86400),
        ("session:" ++ s2, RVal.str (Json.stringify (Json.obj f2)), some 86400),
        ("session:" ++ s1, RVal.str (Json.stringify (Json.obj f1)), some 86400)]⟩
      ("session:" ++ s4) = some (RVal.str (Json.stringify d4), some 86400) := by
    unfold RedisState.lookup
    dsimp only
    rw [@List.find?_cons_of_pos (String × RVal × Option Int) (fun e => e.1 == ("session:" ++ s4)) _ _ (by simp)]
    rfl
  have hl3 : RedisState.lookup
      ⟨[("session:" ++ s4, RVal.str (Json.stringify d4), some 86400),
        ("session:" ++ s3, RVal.str (Json.stringify (Json.obj f3)), some 86400),
        ("session:" ++ s2, RVal.str (Json.stringify (Json.obj f2)), some 86400),
        ("session:" ++ s1, RVal.str (Json.stringify (Json.obj f1)), some 86400)]⟩
      ("session:" ++ s3) =
      some (RVal.str (Json.stringify (Json.obj f3)), some 86400) := by
    unfold RedisState.lookup
    dsimp only
    rw [@List.find?_cons_of_neg (String × RVal × Option Int) (fun e => e.1 == ("session:" ++ s3)) _ _
      (by simp [hb43])]
    rw [@List.find?_cons_of_pos (String × RVal × Option Int) (fun e => e.1 == ("session:" ++ s3)) _ _ (by simp)]
    rfl
  have hl2 : RedisState.lookup
      ⟨[("session:" ++ s4, RVal.str (Json.stringify d4), some 86400),
        ("session:" ++ s3, RVal.str (Json.stringify (Json.obj f3)), some 86400),
        ("session:" ++ s2, RVal.str (Json.stringify (Json.obj f2)), some 86400),
        ("session:" ++ s1, RVal.str (Json.stringify (Json.obj f1)), some 86400)]⟩
      ("session:" ++ s2) =
      some (RVal.str (Json.stringify (Json.obj f2)), some 86400) := by
    unfold RedisState.lookup
    dsimp only
    rw [@List.find?_cons_of_neg (String × RVal × Option Int) (fun e => e.1 == ("session:" ++ s2)) _ _
      (by simp [hb42])]
    rw [@List.find?_cons_of_neg (String × RVal × Option Int) (fun e => e.1 == ("session:" ++ s2)) _ _
      (by simp [hb32])]
    rw [@List.find?_cons_of_pos (String × RVal × Option Int) (fun e => e.1 == ("session:" ++ s2)) _ _ (by simp)]
    rfl
  have hl1 : RedisState.lookup
      ⟨[("session:" ++ s4, RVal.str (Json.stringify d4), some 86400),
        ("session:" ++ s3, RVal.str (Json.stringify (Json.obj f3)), some 86400),
        ("session:" ++ s2, RVal.str (Json.stringify (Json.obj f2)), some 86400),
        ("session:" ++ s1, RVal.str (Json.stringify (Json.obj f1)), some 86400)]⟩
      ("session:" ++ s1) =
      some (RVal.str (Json.stringify (Json.obj f1)), some 86400) := by
    unfold RedisState.lookup
    dsimp only
    rw [@List.find?_cons_of_neg (String × RVal × Option Int) (fun e => e.1 == ("session:" ++ s1)) _ _
      (by simp [hb41])]
    rw [@List.find?_cons_of_neg (String × RVal × Option Int) (fun e => e.1 == ("session:" ++ s1)) _ _
      (by simp [hb31])]
    rw [@List.find?_cons_of_neg (String × RVal × Option Int) (fun e => e.1 == ("session:" ++ s1)) _ _
      (by simp [hb21])]
    rw [@List.find?_cons_of_pos (String × RVal × Option Int) (fun e => e.1 == ("session:" ++ s1)) _ _ (by simp)]
    rfl
  have hg4 : cache.get
      ⟨[("session:" ++ s4, RVal.str (Json.stringify d4), some 86400),
        ("session:" ++ s3, RVal.str (Json.stringify (Json.obj f3)), some 86400),
        ("session:" ++ s2, RVal.str (Json.stringify (Json.obj f2)), some 86400),
        ("session:" ++ s1, RVal.str (Json.stringify (Json.obj f1)), some 86400)]⟩
      false ("session:" ++ s4) = d4 := by
    unfold cache.get
    rw [hl4]
    simp [Json.stringify_ne_empty, Json.parse_stringify]
  have hg3 : cache.get
      ⟨[("session:" ++ s4, RVal.str (Json.stringify d4), some 86400),
        ("session:" ++ s3, RVal.str (Json.stringify (Json.obj f3)), some 86400),
        ("session:" ++ s2, RVal.str (Json.stringify (Json.obj f2)), some 86400),
        ("session:" ++ s1, RVal.str (Json.stringify (Json.obj f1)), some 86400)]⟩
      false ("session:" ++ s3) = Json.obj f3 := by
    unfold cache.get
    rw [hl3]
    simp [Json.stringify_ne_empty, Json.parse_stringify]
  have hg2 : cache.get
      ⟨[("session:" ++ s4, RVal.str (Json.stringify d4), some 86400),
        ("session:" ++ s3, RVal.str (Json.stringify (Json.obj f3)), some 86400),
        ("session:" ++ s2, RVal.str (Json.stringify (Json.obj f2)), some 86400),
        ("session:" ++ s1, RVal.str (Json.stringify (Json.obj f1)), some 86400)]⟩
      false ("session:" ++ s2) = Json.obj f2 := by
    unfold cache.get
    rw [hl2]
    simp [Json.stringify_ne_empty, Json.parse_stringify]
  have hg1 : cache.get
      ⟨[("session:" ++ s4, RVal.str (Json.stringify d4), some 86400),
        ("session:" ++ s3, RVal.str (Json.stringify (Json.obj f3)), some 86400),
        ("session:" ++ s2, RVal.str (Json.stringify (Json.obj f2)), some 86400),
        ("session:" ++ s1, RVal.str (Json.stringify (Json.obj f1)), some 86400)]⟩
      false ("session:" ++ s1) = Json.obj f1 := by
    unfold cache.get
    rw [hl1]
    simp [Json.stringify_ne_empty, Json.parse_stringify]
  have hm1 : sessionStore.userIdMatches (Json.obj f1) u = true := by
    unfold sessionStore.userIdMatches Json.getField
    simp [Json.truthy, Json.fields, hu1]
  have hm2 : sessionStore.userIdMatches (Json.obj f2) u = true := by
    unfold sessionStore.userIdMatches Json.getField
    simp [Json.truthy, Json.fields, hu2]
  have hm3 : sessionStore.userIdMatches (Json.obj f3) u = true := by
    unfold sessionStore.userIdMatches Json.getField
    simp [Json.truthy, Json.fields, hu3]
  unfold sessionStore.getUserSessions
  dsimp only
  rw [hkeys]
  simp only [List.filterMap_cons, List.filterMap_nil, hg4, hg3, hg2, hg1, hu4, hm1,
    hm2, hm3, sessionIdOf_append, Json.fields, Bool.false_eq_true, if_false, if_true]
  rw [mergeObj_sessionId s3 f3 hs3, mergeObj_sessionId s2 f2 hs2,
    mergeObj_sessionId s1 f1 hs1]


/-- C9 witness: three concrete sessions of user u and one of user v. -/
theorem C9_sessions_per_user_witness :
    sessionStore.getUserSessions
      ((sessionStore.setSession
        ((sessionStore.setSession
          ((sessionStore.setSession
            ((sessionStore.setSession RedisState.empty false "a"
              (Json.obj [("userId", Json.str "u")]) 86400).2)
            false "b" (Json.obj [("userId", Json.str "u"), ("x", Json.num 1)])
            86400).2)
          false "c" (Json.obj [("userId", Json.str "u")]) 86400).2)
        false "d" (Json.obj [("userId", Json.str "v")]) 86400).2)
      false "u" =
    [Json.obj (("sessionId", Json.str "c") :: [("userId", Json.str "u")]),
     Json.obj (("sessionId", Json.str "b") ::
       [("userId", Json.str "u"), ("x", Json.num 1)]),
     Json.obj (("sessionId", Json.str "a") :: [("userId", Json.str "u")])] :=
  C9_sessions_per_user "a" "b" "c" "d" "u"
    [("userId", Json.str "u")] [("userId", Json.str "u"), ("x", Json.num 1)]
    [("userId", Json.str "u")] (Json.obj [("userId", Json.str "v")])
    (by decide) (by decide) (by decide) (by decide) (by decide) (by decide)
    rfl rfl rfl rfl rfl rfl rfl

/-- C7 amended witness: concrete key and value — TTL 0 stores without
expiry and survives 5 seconds; TTL -5 is rejected with false. -/
theorem C7_cache_ttl_semantics_witness :
    cache.set RedisState.empty false "k" (Json.num 1) 0 =
      (true, RedisState.empty.insert "k" (RVal.str (Json.stringify (Json.num 1)))
        none) ∧
    ((cache.set RedisState.empty false "k" (Json.num 1) 0).2.tick 5).lookup "k" =
      some (RVal.str (Json.stringify (Json.num 1)), none) ∧
    cache.set RedisState.empty false "k" (Json.num 1) (-5) =
      (false, RedisState.empty) :=
  ⟨(C7_cache_ttl_semantics RedisState.empty "k" (Json.num 1)).1,
   (C7_cache_ttl_semantics RedisState.empty "k" (Json.num 1)).2.1 5,
   (C7_cache_ttl_semantics RedisState.empty "k" (Json.num 1)).2.2 (-5) (by norm_num)⟩
